import Mathlib

/-!
Verification development for the nostr-notes playback sequencing core.

The definitions below are a shallow embedding of the TypeScript sources:
- src/src/audio/playback/playbackEngine.ts (Normal autoplay engine and the
  exact-match noteMatcher helpers bundled in the same file),
- src/src/audio/utils.ts (getNoteDurationMs, the playback router and the
  Error-Tracking engine),
- src/src/audio/waitForUserEngine.ts (Wait-For-User engine),
- src/unnamed/part_006 (UserInputTracker).

JavaScript numbers (timestamps, durations, tempo) are modelled as rationals;
note indices, which take the sentinel value -1, are modelled as integers.
Timer-based scheduling is modelled explicitly: each engine state carries the
list of pending timers of its event loop together with the engine's tracked
timer handle; `setTimeout` appends a timer, `clearTimeout` removes it, and a
timer observably fires only while it is still pending.
-/

/-- NoteEvent from the Chart component: a pitch name and a duration in beats. -/
structure NoteEvent where
  note : String
  duration : ℚ
deriving DecidableEq, Repr

/-- Error kinds from ERROR_TYPES in the noteMatcher module. -/
inductive ErrorType where
  | WRONG_NOTE
  | TOO_EARLY
  | TOO_LATE
  | WRONG_DURATION
  | MISSED_NOTE
deriving DecidableEq, Repr

/-- PlaybackError record from playbackStore.ts. -/
structure PlaybackError where
  type : ErrorType
  noteIndex : Int
  expectedNote : String
  actualNote : Option String
  timingError : Option ℚ
  durationError : Option ℚ
  timestamp : ℚ
deriving DecidableEq, Repr

/-- UserInputEvent record from playbackStore.ts. -/
structure UserInputEvent where
  note : String
  pressTime : ℚ
  releaseTime : Option ℚ
deriving DecidableEq, Repr

/-- Calls made against the external audio-trigger interface, kept as a log so
that theorems can speak about notes being sounded or silenced. -/
inductive AudioCall where
  | played (note : String)
  | stopped (note : String)
deriving DecidableEq, Repr

/-- getNoteDurationMs from src/src/audio/utils.ts. -/
def getNoteDurationMs (duration tempo : ℚ) : ℚ :=
  duration * (60000 / tempo)

/-- checkNoteMatch from the exact-match noteMatcher module (case-insensitive
comparison of the full pitch string, octave included). -/
def checkNoteMatch (expectedNote userNote : String) : Bool :=
  expectedNote.toLower == userNote.toLower

/-- calculateTimingError from the noteMatcher module: positive means late. -/
def calculateTimingError (expectedTime actualTime : ℚ) : ℚ :=
  actualTime - expectedTime

/-- checkDurationMatch from the noteMatcher module. -/
def checkDurationMatch (expectedDuration actualDuration tolerance : ℚ) : Bool :=
  decide (|expectedDuration - actualDuration| ≤ tolerance)

/-- createError from the noteMatcher module; the timestamp argument stands for
the Date.now() read. -/
def createError (type : ErrorType) (noteIndex : Int) (expectedNote : String)
    (actualNote : Option String) (timingError : Option ℚ) (durationError : Option ℚ)
    (now : ℚ) : PlaybackError :=
  { type := type
    noteIndex := noteIndex
    expectedNote := expectedNote
    actualNote := actualNote
    timingError := timingError
    durationError := durationError
    timestamp := now }

/-- UserInputTracker state (src/unnamed/part_006): an append-only event log and
the active-press map; a JavaScript Map with string keys is modelled as an
insertion-ordered association list. -/
structure Tracker where
  events : List UserInputEvent
  activePresses : List (String × ℚ)
deriving DecidableEq, Repr

/-- Fresh tracker, as constructed at startup. -/
def Tracker.empty : Tracker :=
  { events := [], activePresses := [] }

/-- UserInputTracker.recordPress: a no-op when the note already has an open
press, otherwise it opens a new event and marks the note active. -/
def Tracker.recordPress (t : Tracker) (note : String) (timestamp : ℚ) : Tracker :=
  if (t.activePresses.find? (fun p => p.1 == note)).isSome then t
  else
    { events := t.events ++ [{ note := note, pressTime := timestamp, releaseTime := none }]
      activePresses := t.activePresses ++ [(note, timestamp)] }

/-- Helper for recordRelease: close the first open event for the note in the
given list (the source scans the event log backwards, so this is applied to the
reversed log). -/
def closeFirstOpen : List UserInputEvent → String → ℚ → List UserInputEvent
  | [], _, _ => []
  | e :: rest, note, ts =>
    if e.note == note && e.releaseTime.isNone then
      { e with releaseTime := some ts } :: rest
    else
      e :: closeFirstOpen rest note ts

/-- Close the most recent open event for the note, exactly as the backward for
loop of UserInputTracker.recordRelease does. -/
def closeMostRecentOpen (events : List UserInputEvent) (note : String) (ts : ℚ) :
    List UserInputEvent :=
  (closeFirstOpen events.reverse note ts).reverse

/-- UserInputTracker.recordRelease. The source guards with
`if (!pressTime) return;`, a JavaScript truthiness test: it returns both when
the note has no entry in the active-press map and when the stored press
timestamp is the falsy number 0. -/
def Tracker.recordRelease (t : Tracker) (note : String) (timestamp : ℚ) : Tracker :=
  match t.activePresses.find? (fun p => p.1 == note) with
  | none => t
  | some p =>
    if p.2 == 0 then t
    else
      { events := closeMostRecentOpen t.events note timestamp
        activePresses := t.activePresses.filter (fun q => q.1 != note) }

/-- UserInputTracker.getEventsInWindow: events whose press time falls in the
closed window, in recording order. -/
def Tracker.getEventsInWindow (t : Tracker) (startTime endTime : ℚ) : List UserInputEvent :=
  t.events.filter (fun e => decide (startTime ≤ e.pressTime) && decide (e.pressTime ≤ endTime))

/-- UserInputTracker.isNotePressed: exact key lookup in the active-press map. -/
def Tracker.isNotePressed (t : Tracker) (note : String) : Bool :=
  (t.activePresses.find? (fun p => p.1 == note)).isSome

/-- UserInputTracker.getActiveNotes: the keys of the active-press map in
insertion order. -/
def Tracker.getActiveNotes (t : Tracker) : List String :=
  t.activePresses.map (fun p => p.1)

/-- UserInputTracker.getTotalEventCount. -/
def Tracker.getTotalEventCount (t : Tracker) : Nat :=
  t.events.length

/-- UserInputTracker.clear. -/
def Tracker.clear (_t : Tracker) : Tracker :=
  Tracker.empty

/-- Modelled from the spec: the exact-match `latestEventForNote(note)` query
(`getLatestEventForNote`) is called by the Wait-For-User engine but its
definition is absent from the sources, which only contain the octave-agnostic
variant; per the spec it returns the most recent event, open or closed,
matching the note under the case-insensitive exact pitch comparison. -/
def Tracker.getLatestEventForNote (t : Tracker) (note : String) : Option UserInputEvent :=
  t.events.reverse.find? (fun e => e.note.toLower == note.toLower)

/-- PlaybackState from playbackStore.ts (the converged shape used by all three
engines). The userInputEvents field is never read or written by any engine —
the engines go through the tracker singleton — so it is not modelled. -/
structure PlaybackState where
  isPlaying : Bool
  currentNoteIndex : Int
  lastCompletedNoteIndex : Int
  melody : List NoteEvent
  startAfterTs : Option ℚ
  expectedNoteIndex : Int
  errors : List PlaybackError
  nextNoteToPlay : Option String
deriving DecidableEq, Repr

/-- JavaScript array indexing melody[i] at the places where the engines have
already established that the index is in range. -/
def noteAt (melody : List NoteEvent) (i : Int) : NoteEvent :=
  if h : 0 ≤ i ∧ i.toNat < melody.length then melody.get ⟨i.toNat, h.2⟩
  else { note := "", duration := 0 }

/-- Truthiness of the startAfterTs field: `if (startAfterTs)` in the source is
false both for null and for the falsy timestamp 0. -/
def truthyTs : Option ℚ → Bool
  | none => false
  | some t => t != 0

/-- isSameMelody, duplicated verbatim in all three engine files: same length
and, position by position, equal note string and equal duration. -/
def isSameMelody : List NoteEvent → List NoteEvent → Bool
  | [], [] => true
  | a :: as, b :: bs => a.note == b.note && a.duration == b.duration && isSameMelody as bs
  | _, _ => false

/-- Timer callbacks armed by the autoplay schedulers (Normal and
Error-Tracking engines): the completion callback of note `noteIndex`, and the
delayed-start re-arm that re-enters `scheduleNextNote` at `noteIndex`. -/
inductive SeqTimerAct where
  | advance (noteIndex : Int)
  | delayed (noteIndex : Int)
deriving DecidableEq, Repr

/-- Pending timer in the event loop of an autoplay engine. -/
structure SeqTimer where
  id : Nat
  fireAt : ℚ
  act : SeqTimerAct
deriving DecidableEq, Repr

namespace NE

/-- State of the Normal (autoplay) engine from
src/src/audio/playback/playbackEngine.ts: the shared PlaybackState, the tempo
from the settings store, the module-level playbackTimeoutId and
currentlyPlayingNote closure variables, the process-wide tracker singleton
(which this engine never touches), the event loop's pending timers with the
wall clock, and the log of audio-trigger calls. -/
structure State where
  pb : PlaybackState
  tempo : ℚ
  timeoutId : Option Nat
  sounding : Option String
  tracker : Tracker
  timers : List SeqTimer
  nextId : Nat
  now : ℚ
  audio : List AudioCall
deriving Repr

/-- Arm a timer: appends to the pending list and returns the fresh handle.
Browser timer handles are positive integers, so the `if (playbackTimeoutId)`
guards in the source are plain null checks in the model. -/
def setTimeout (s : State) (delay : ℚ) (act : SeqTimerAct) : State × Nat :=
  ({ s with
      timers := s.timers ++ [{ id := s.nextId, fireAt := s.now + delay, act := act }]
      nextId := s.nextId + 1 },
    s.nextId)

/-- Translation of `if (playbackTimeoutId) { clearTimeout(...); ... = null }`. -/
def clearTrackedTimeout (s : State) : State :=
  match s.timeoutId with
  | some tid => { s with timers := s.timers.filter (fun t => t.id != tid), timeoutId := none }
  | none => s

/-- Translation of `if (currentlyPlayingNote) { stopNote(currentlyPlayingNote); }`
without nulling the variable (as at the top of scheduleNextNote). -/
def logStopNote (s : State) : State :=
  match s.sounding with
  | some n => { s with audio := s.audio ++ [AudioCall.stopped n] }
  | none => s

/-- Translation of the stop-and-null form used by pause, stop and seek. -/
def silence (s : State) : State :=
  match s.sounding with
  | some n => { s with audio := s.audio ++ [AudioCall.stopped n], sounding := none }
  | none => s

/-- Normal engine stop(). -/
def stop (s : State) : State :=
  let s := { s with pb := { s.pb with
    currentNoteIndex := -1, lastCompletedNoteIndex := -1, isPlaying := false } }
  silence (clearTrackedTimeout s)

/-- Normal engine pause(). -/
def pause (s : State) : State :=
  silence (clearTrackedTimeout { s with pb := { s.pb with isPlaying := false } })

/-- Part of scheduleNextNote after the delayed-start handling: auto-stop at the
end of the melody, otherwise silence the previous note, publish the new
currentNoteIndex, sound the note and arm its completion timer. The
adjustBaseOctaveForNote side effect touches only the settings store and is not
modelled. -/
def playAtIndex (s : State) (noteIndex : Int) : State :=
  if (s.pb.melody.length : Int) ≤ noteIndex then stop s
  else
    let note := noteAt s.pb.melody noteIndex
    let s := logStopNote s
    let s := { s with pb := { s.pb with currentNoteIndex := noteIndex } }
    let s := { s with audio := s.audio ++ [AudioCall.played note.note], sounding := some note.note }
    let durationMs := getNoteDurationMs note.duration s.tempo
    let armed := setTimeout s durationMs (SeqTimerAct.advance noteIndex)
    { armed.1 with timeoutId := some armed.2 }

/-- Normal engine scheduleNextNote. -/
def scheduleNextNote (s : State) (noteIndex : Int) : State :=
  if s.pb.isPlaying = false then s
  else if truthyTs s.pb.startAfterTs then
    let ts := s.pb.startAfterTs.getD 0
    let remaining := ts - s.now
    if 0 < remaining then
      let armed := setTimeout s remaining (SeqTimerAct.delayed noteIndex)
      { armed.1 with timeoutId := some armed.2 }
    else playAtIndex { s with pb := { s.pb with startAfterTs := none } } noteIndex
  else playAtIndex s noteIndex

/-- Normal engine play(melody?). -/
def play (s : State) (input : Option (List NoteEvent)) : State :=
  let s :=
    match input with
    | some notes =>
      if isSameMelody notes s.pb.melody then s
      else { s with pb := { s.pb with
        melody := notes, currentNoteIndex := -1, lastCompletedNoteIndex := -1 } }
    | none => s
  if s.pb.melody.length = 0 then s
  else
    let s := { s with pb := { s.pb with startAfterTs := none, isPlaying := true } }
    let startIndex : Int :=
      if s.pb.lastCompletedNoteIndex < 0 then 0 else s.pb.lastCompletedNoteIndex + 1
    scheduleNextNote s startIndex

/-- Normal engine seek(noteIndex, delayMs). -/
def seek (s : State) (noteIndex : Int) (delayMs : ℚ) : State :=
  let wasPlaying := s.pb.isPlaying
  let s := silence (clearTrackedTimeout s)
  let clampedIndex := max (-1) (min noteIndex ((s.pb.melody.length : Int) - 1))
  let s := { s with pb := { s.pb with
    currentNoteIndex := clampedIndex
    lastCompletedNoteIndex := max (-1) (clampedIndex - 1)
    startAfterTs := if 0 < delayMs then some (s.now + delayMs) else none } }
  if wasPlaying = true ∧ 0 ≤ clampedIndex then scheduleNextNote s clampedIndex else s

/-- Behaviour of the two timer callbacks armed by scheduleNextNote. -/
def runTimerAct (s : State) : SeqTimerAct → State
  | SeqTimerAct.advance i =>
    scheduleNextNote { s with pb := { s.pb with lastCompletedNoteIndex := i } } (i + 1)
  | SeqTimerAct.delayed i => scheduleNextNote s i

/-- Let wall-clock time move forward. -/
def advanceTime (s : State) (t : ℚ) : State :=
  { s with now := max s.now t }

/-- A due pending timer fires: it is removed from the pending list and its
callback runs. A cancelled timer (no longer pending) does nothing. -/
def fireTimer (s : State) (tid : Nat) : State :=
  match s.timers.find? (fun t => t.id == tid) with
  | some t =>
    if t.fireAt ≤ s.now then
      runTimerAct { s with timers := s.timers.filter (fun u => u.id != tid) } t.act
    else s
  | none => s

/-- Reachability invariant used as a hypothesis: every pending timer of the
event loop is the one tracked by playbackTimeoutId. -/
def TimersTracked (s : State) : Prop :=
  ∀ t ∈ s.timers, s.timeoutId = some t.id

end NE

/-- checkNoteErrors from the Error-Tracking engine in src/src/audio/utils.ts,
as a pure function returning the errors it appends for the finished note: the
note's sounding window runs from noteStartTime to the Date.now() read
(`now`). -/
def checkNoteErrors (tracker : Tracker) (tempo now : ℚ) (noteIndex : Int)
    (expectedNote : NoteEvent) (noteStartTime : ℚ) : List PlaybackError :=
  let noteEndTime := now
  let expectedDuration := getNoteDurationMs expectedNote.duration tempo
  let userEvents := tracker.getEventsInWindow noteStartTime noteEndTime
  match userEvents with
  | [] => [createError ErrorType.MISSED_NOTE noteIndex expectedNote.note none none none now]
  | firstEvent :: _ =>
    match userEvents.find? (fun ev => checkNoteMatch expectedNote.note ev.note) with
    | none =>
      [createError ErrorType.WRONG_NOTE noteIndex expectedNote.note
        (some firstEvent.note) none none now]
    | some matchingEvent =>
      let timingError := calculateTimingError noteStartTime matchingEvent.pressTime
      let timingErrors :=
        if timingError < -100 then
          [createError ErrorType.TOO_EARLY noteIndex expectedNote.note
            (some matchingEvent.note) (some |timingError|) none now]
        else if 100 < timingError then
          [createError ErrorType.TOO_LATE noteIndex expectedNote.note
            (some matchingEvent.note) (some timingError) none now]
        else []
      let durationErrors :=
        match matchingEvent.releaseTime with
        | some releaseTime =>
          let actualDuration := releaseTime - matchingEvent.pressTime
          if checkDurationMatch expectedDuration actualDuration 150 then []
          else
            [createError ErrorType.WRONG_DURATION noteIndex expectedNote.note
              (some matchingEvent.note) none (some |actualDuration - expectedDuration|) now]
        | none => []
      timingErrors ++ durationErrors

namespace ET

/-- State of the Error-Tracking engine from src/src/audio/utils.ts: like the
Normal engine plus the noteStartTime/expectedNoteStartTime closure variables
and the tracker singleton it reads and clears. -/
structure State where
  pb : PlaybackState
  tempo : ℚ
  timeoutId : Option Nat
  sounding : Option String
  noteStartTime : Option ℚ
  expectedNoteStartTime : Option ℚ
  tracker : Tracker
  timers : List SeqTimer
  nextId : Nat
  now : ℚ
  audio : List AudioCall
deriving Repr

/-- Arm a timer (same event-loop model as the Normal engine). -/
def setTimeout (s : State) (delay : ℚ) (act : SeqTimerAct) : State × Nat :=
  ({ s with
      timers := s.timers ++ [{ id := s.nextId, fireAt := s.now + delay, act := act }]
      nextId := s.nextId + 1 },
    s.nextId)

/-- Clear the tracked playbackTimeoutId, when set. -/
def clearTrackedTimeout (s : State) : State :=
  match s.timeoutId with
  | some tid => { s with timers := s.timers.filter (fun t => t.id != tid), timeoutId := none }
  | none => s

/-- stopNote on the sounding note without nulling the closure variable. -/
def logStopNote (s : State) : State :=
  match s.sounding with
  | some n => { s with audio := s.audio ++ [AudioCall.stopped n] }
  | none => s

/-- stopNote on the sounding note and null the closure variable. -/
def silence (s : State) : State :=
  match s.sounding with
  | some n => { s with audio := s.audio ++ [AudioCall.stopped n], sounding := none }
  | none => s

/-- Append freshly recorded errors to the shared PlaybackState. -/
def appendErrors (s : State) (errs : List PlaybackError) : State :=
  { s with pb := { s.pb with errors := s.pb.errors ++ errs } }

/-- Error-Tracking engine stop(). -/
def stop (s : State) : State :=
  let s := { s with pb := { s.pb with
    currentNoteIndex := -1, lastCompletedNoteIndex := -1, isPlaying := false } }
  let s := silence (clearTrackedTimeout s)
  { s with noteStartTime := none, expectedNoteStartTime := none, tracker := s.tracker.clear }

/-- Translation of the `if (noteIndex > 0 && noteStartTime !== null &&
expectedNoteStartTime !== null)` block of the Error-Tracking scheduleNextNote:
record the just-finished note's errors. -/
def recordPrevNoteErrors (s : State) (noteIndex : Int) : State :=
  match s.noteStartTime, s.expectedNoteStartTime with
  | some _, some start =>
    if 0 < noteIndex then
      appendErrors s
        (checkNoteErrors s.tracker s.tempo s.now (noteIndex - 1)
          (noteAt s.pb.melody (noteIndex - 1)) start)
    else s
  | _, _ => s

/-- Translation of the end-of-melody block: record the final note's errors
before the terminal stop. -/
def recordLastNoteErrors (s : State) : State :=
  match s.noteStartTime, s.expectedNoteStartTime with
  | some _, some start =>
    appendErrors s
      (checkNoteErrors s.tracker s.tempo s.now ((s.pb.melody.length : Int) - 1)
        (noteAt s.pb.melody ((s.pb.melody.length : Int) - 1)) start)
  | _, _ => s

/-- Part of the Error-Tracking scheduleNextNote after the delayed-start
handling: evaluate the just-finished note's errors, auto-stop at the end of the
melody (after evaluating the final note), otherwise sound note `noteIndex` and
arm its completion timer. -/
def playAtIndex (s : State) (noteIndex : Int) : State :=
  let s := recordPrevNoteErrors s noteIndex
  if (s.pb.melody.length : Int) ≤ noteIndex then
    stop (recordLastNoteErrors s)
  else
    let note := noteAt s.pb.melody noteIndex
    let s := logStopNote s
    let s := { s with pb := { s.pb with currentNoteIndex := noteIndex } }
    let s := { s with expectedNoteStartTime := some s.now, noteStartTime := some s.now }
    let s := { s with audio := s.audio ++ [AudioCall.played note.note], sounding := some note.note }
    let durationMs := getNoteDurationMs note.duration s.tempo
    let armed := setTimeout s durationMs (SeqTimerAct.advance noteIndex)
    { armed.1 with timeoutId := some armed.2 }

/-- Error-Tracking engine scheduleNextNote. -/
def scheduleNextNote (s : State) (noteIndex : Int) : State :=
  if s.pb.isPlaying = false then s
  else if truthyTs s.pb.startAfterTs then
    let ts := s.pb.startAfterTs.getD 0
    let remaining := ts - s.now
    if 0 < remaining then
      let armed := setTimeout s remaining (SeqTimerAct.delayed noteIndex)
      { armed.1 with timeoutId := some armed.2 }
    else playAtIndex { s with pb := { s.pb with startAfterTs := none } } noteIndex
  else playAtIndex s noteIndex

/-- Error-Tracking engine play(melody?): a structurally new melody also clears
the errors list and the tracker. -/
def play (s : State) (input : Option (List NoteEvent)) : State :=
  let s :=
    match input with
    | some notes =>
      if isSameMelody notes s.pb.melody then s
      else { s with
        pb := { s.pb with
          melody := notes, currentNoteIndex := -1, lastCompletedNoteIndex := -1, errors := [] }
        tracker := s.tracker.clear }
    | none => s
  if s.pb.melody.length = 0 then s
  else
    let s := { s with pb := { s.pb with startAfterTs := none, isPlaying := true } }
    let startIndex : Int :=
      if s.pb.lastCompletedNoteIndex < 0 then 0 else s.pb.lastCompletedNoteIndex + 1
    scheduleNextNote s startIndex

/-- Error-Tracking engine pause(). -/
def pause (s : State) : State :=
  let s := silence (clearTrackedTimeout { s with pb := { s.pb with isPlaying := false } })
  { s with noteStartTime := none, expectedNoteStartTime := none }

/-- Error-Tracking engine seek(noteIndex, delayMs). -/
def seek (s : State) (noteIndex : Int) (delayMs : ℚ) : State :=
  let wasPlaying := s.pb.isPlaying
  let s := silence (clearTrackedTimeout s)
  let clampedIndex := max (-1) (min noteIndex ((s.pb.melody.length : Int) - 1))
  let s := { s with pb := { s.pb with
    currentNoteIndex := clampedIndex
    lastCompletedNoteIndex := max (-1) (clampedIndex - 1)
    startAfterTs := if 0 < delayMs then some (s.now + delayMs) else none } }
  let s := { s with noteStartTime := none, expectedNoteStartTime := none }
  if wasPlaying = true ∧ 0 ≤ clampedIndex then scheduleNextNote s clampedIndex else s

/-- Behaviour of the two timer callbacks armed by the scheduler. -/
def runTimerAct (s : State) : SeqTimerAct → State
  | SeqTimerAct.advance i =>
    scheduleNextNote { s with pb := { s.pb with lastCompletedNoteIndex := i } } (i + 1)
  | SeqTimerAct.delayed i => scheduleNextNote s i

/-- Let wall-clock time move forward. -/
def advanceTime (s : State) (t : ℚ) : State :=
  { s with now := max s.now t }

/-- A due pending timer fires; a cancelled one does nothing. -/
def fireTimer (s : State) (tid : Nat) : State :=
  match s.timers.find? (fun t => t.id == tid) with
  | some t =>
    if t.fireAt ≤ s.now then
      runTimerAct { s with timers := s.timers.filter (fun u => u.id != tid) } t.act
    else s
  | none => s

end ET

namespace WU

/-- Timer callbacks armed by the Wait-For-User engine: the tracked backup
noteDurationTimeout (which re-checks its captured expected index and pressed
key before advancing) and the untracked anonymous auto-stop armed after the
final note advances. -/
inductive TimerAct where
  | durAdvance (expectedIdx : Int) (noteName : String)
  | autoStop
deriving DecidableEq, Repr

/-- Pending timer in the Wait-For-User event loop. -/
structure Timer where
  id : Nat
  fireAt : ℚ
  act : TimerAct
deriving DecidableEq, Repr

/-- State of the Wait-For-User engine from src/src/audio/waitForUserEngine.ts:
the shared PlaybackState, tempo, the tracker singleton, the
currentlyPlayingNote / lastCheckedEventCount / noteDurationTimeout closure
variables, whether the 50ms inputCheckInterval is installed (`polling`), the
pending timers with the wall clock, and the audio-call log. -/
structure State where
  pb : PlaybackState
  tempo : ℚ
  tracker : Tracker
  sounding : Option String
  polling : Bool
  lastCheckedEventCount : Nat
  durTimeoutId : Option Nat
  timers : List Timer
  nextId : Nat
  now : ℚ
  audio : List AudioCall
deriving Repr

/-- Arm a timer and return the fresh handle. -/
def setTimeout (s : State) (delay : ℚ) (act : TimerAct) : State × Nat :=
  ({ s with
      timers := s.timers ++ [{ id := s.nextId, fireAt := s.now + delay, act := act }]
      nextId := s.nextId + 1 },
    s.nextId)

/-- Translation of `if (noteDurationTimeout) { clearTimeout(...); ... = null }`. -/
def clearDurTimeout (s : State) : State :=
  match s.durTimeoutId with
  | some tid => { s with timers := s.timers.filter (fun t => t.id != tid), durTimeoutId := none }
  | none => s

/-- stopNote on the sounding note without nulling the closure variable. -/
def logStopNote (s : State) : State :=
  match s.sounding with
  | some n => { s with audio := s.audio ++ [AudioCall.stopped n] }
  | none => s

/-- stopNote on the sounding note and null the closure variable. -/
def silence (s : State) : State :=
  match s.sounding with
  | some n => { s with audio := s.audio ++ [AudioCall.stopped n], sounding := none }
  | none => s

/-- Wait-For-User engine stop(): reset the indices and flags, stop the
polling interval, clear the tracked duration timeout, silence the sounding
note and clear the tracker. The anonymous auto-stop timer has no handle, so
nothing here can remove it from the pending list. -/
def stop (s : State) : State :=
  let s := { s with pb := { s.pb with
    currentNoteIndex := -1, lastCompletedNoteIndex := -1, expectedNoteIndex := -1,
    isPlaying := false, nextNoteToPlay := none } }
  let s := { s with polling := false }
  let s := clearDurTimeout s
  let s := silence s
  { s with tracker := s.tracker.clear }

/-- Wait-For-User engine pause(). -/
def pause (s : State) : State :=
  let s := { s with pb := { s.pb with isPlaying := false } }
  let s := { s with polling := false }
  silence (clearDurTimeout s)

/-- Wait-For-User advanceToNextNote: silence the feedback note, move the
indices forward and, when the final note has just advanced, arm the anonymous
auto-stop timer for that note's duration without keeping its handle. -/
def advanceToNextNote (s : State) : State :=
  let melody := s.pb.melody
  let e := s.pb.expectedNoteIndex
  let s := logStopNote s
  let currentNote := noteAt melody e
  let newIndex := e + 1
  let s := { s with pb := { s.pb with
    currentNoteIndex := e, lastCompletedNoteIndex := e, expectedNoteIndex := newIndex } }
  let s := { s with pb := { s.pb with nextNoteToPlay :=
    if newIndex < (melody.length : Int) then some (noteAt melody newIndex).note else none } }
  let s := silence s
  if (melody.length : Int) ≤ newIndex then
    let durationMs := getNoteDurationMs currentNote.duration s.tempo
    (setTimeout s durationMs TimerAct.autoStop).1
  else s

/-- Scan of the newly recorded input events in checkUserInput: the first event
matching the expected note arms the backup duration timeout (when some of the
nominal duration remains), publishes currentNoteIndex and sounds the note for
feedback. -/
def processNewEvents (s : State) (expectedNoteIndex : Int) (expectedNote : NoteEvent) :
    List UserInputEvent → State
  | [] => s
  | newEvent :: rest =>
    if checkNoteMatch expectedNote.note newEvent.note then
      let durationMs := getNoteDurationMs expectedNote.duration s.tempo
      let timeUntilAdvance := durationMs - (s.now - newEvent.pressTime)
      let s :=
        if 0 < timeUntilAdvance then
          let armed :=
            setTimeout s timeUntilAdvance (TimerAct.durAdvance expectedNoteIndex expectedNote.note)
          { armed.1 with durTimeoutId := some armed.2 }
        else s
      let s := { s with pb := { s.pb with currentNoteIndex := expectedNoteIndex } }
      { s with
        audio := s.audio ++ [AudioCall.played expectedNote.note]
        sounding := some expectedNote.note }
    else processNewEvents s expectedNoteIndex expectedNote rest

/-- Wait-For-User checkUserInput, the body of the 50ms polling tick. -/
def checkUserInput (s : State) : State :=
  let melody := s.pb.melody
  let e := s.pb.expectedNoteIndex
  if s.pb.isPlaying = false then s
  else if (melody.length : Int) ≤ e then stop s
  else
    let expectedNote := noteAt melody e
    let expectedNoteName := expectedNote.note
    if s.pb.currentNoteIndex = e then
      if s.tracker.isNotePressed expectedNoteName = false then
        let s := clearDurTimeout s
        let s := silence s
        { s with pb := { s.pb with currentNoteIndex := e - 1 } }
      else
        match s.tracker.getLatestEventForNote expectedNoteName with
        | none => { s with pb := { s.pb with currentNoteIndex := e - 1 } }
        | some latestEvent =>
          match latestEvent.releaseTime with
          | some _ => { s with pb := { s.pb with currentNoteIndex := e - 1 } }
          | none =>
            let durationMs := getNoteDurationMs expectedNote.duration s.tempo
            let elapsed := s.now - latestEvent.pressTime
            if durationMs ≤ elapsed then advanceToNextNote (clearDurTimeout s)
            else s
    else
      let currentEventCount := s.tracker.getTotalEventCount
      if currentEventCount ≤ s.lastCheckedEventCount then s
      else
        let allEvents := s.tracker.getEventsInWindow 0 s.now
        let newEvents := allEvents.drop s.lastCheckedEventCount
        let s := { s with lastCheckedEventCount := currentEventCount }
        processNewEvents s e expectedNote newEvents

/-- One tick of the inputCheckInterval: runs only while the interval is
installed. -/
def pollTick (s : State) : State :=
  if s.polling then checkUserInput s else s

/-- Wait-For-User engine play(melody?). -/
def play (s : State) (input : Option (List NoteEvent)) : State :=
  let s :=
    match input with
    | some notes =>
      if isSameMelody notes s.pb.melody then s
      else { s with
        pb := { s.pb with
          melody := notes, currentNoteIndex := -1, lastCompletedNoteIndex := -1,
          expectedNoteIndex := -1, errors := [] }
        tracker := s.tracker.clear }
    | none => s
  if s.pb.melody.length = 0 then s
  else
    let s := { s with pb := { s.pb with isPlaying := true } }
    let startIndex : Int :=
      if s.pb.lastCompletedNoteIndex < 0 then 0 else s.pb.lastCompletedNoteIndex + 1
    let s := { s with pb := { s.pb with expectedNoteIndex := startIndex } }
    let currentCount := s.tracker.getTotalEventCount
    let s :=
      if startIndex = 0 ∧ 0 < currentCount then { s with lastCheckedEventCount := currentCount - 1 }
      else { s with lastCheckedEventCount := currentCount }
    let nn :=
      if startIndex < (s.pb.melody.length : Int) then some (noteAt s.pb.melody startIndex).note
      else none
    let s := { s with pb := { s.pb with nextNoteToPlay := nn } }
    { s with polling := true }

/-- Wait-For-User engine seek(noteIndex, _delayMs): stops the polling interval
and silences the note but clears no timeout. -/
def seek (s : State) (noteIndex : Int) (_delayMs : ℚ) : State :=
  let wasPlaying := s.pb.isPlaying
  let s := { s with polling := false }
  let s := silence s
  let clampedIndex := max (-1) (min noteIndex ((s.pb.melody.length : Int) - 1))
  let s := { s with pb := { s.pb with
    currentNoteIndex := clampedIndex
    lastCompletedNoteIndex := max (-1) (clampedIndex - 1)
    expectedNoteIndex := if 0 ≤ clampedIndex then clampedIndex else -1 } }
  let nn :=
    if 0 ≤ clampedIndex ∧ clampedIndex < (s.pb.melody.length : Int) then
      some (noteAt s.pb.melody clampedIndex).note
    else none
  let s := { s with pb := { s.pb with nextNoteToPlay := nn } }
  if wasPlaying = true ∧ 0 ≤ clampedIndex then { s with polling := true } else s

/-- Behaviour of the two timer callbacks: the backup duration timeout
double-checks its captured expected index and that the key is still pressed;
the anonymous auto-stop calls stop(). -/
def runTimerAct (s : State) : TimerAct → State
  | TimerAct.durAdvance expectedIdx noteName =>
    if s.pb.currentNoteIndex = expectedIdx ∧ s.tracker.isNotePressed noteName = true then
      advanceToNextNote { s with durTimeoutId := none }
    else s
  | TimerAct.autoStop => stop s

/-- Let wall-clock time move forward. -/
def advanceTime (s : State) (t : ℚ) : State :=
  { s with now := max s.now t }

/-- A due pending timer fires; a cancelled one does nothing. -/
def fireTimer (s : State) (tid : Nat) : State :=
  match s.timers.find? (fun t => t.id == tid) with
  | some t =>
    if t.fireAt ≤ s.now then
      runTimerAct { s with timers := s.timers.filter (fun u => u.id != tid) } t.act
    else s
  | none => s

/-- UI input layer: key press recorded at the current time. -/
def userPress (s : State) (note : String) : State :=
  { s with tracker := s.tracker.recordPress note s.now }

/-- UI input layer: key release recorded at the current time. -/
def userRelease (s : State) (note : String) : State :=
  { s with tracker := s.tracker.recordRelease note s.now }

end WU

/-- Tracker after recordPress appends a fresh open event: the normal form of
recordPress on a note that is not currently active. -/
def Tracker.pressedAppend (t : Tracker) (note : String) (ts : ℚ) : Tracker :=
  { events := t.events ++ [{ note := note, pressTime := ts, releaseTime := none }]
    activePresses := t.activePresses ++ [(note, ts)] }

/-- The backup duration timeout the Wait-For-User engine arms when it accepts
a press of the expected note at time t2. -/
def WU.armedTimer (r : WU.State) (t2 : ℚ) : WU.Timer :=
  { id := r.nextId
    fireAt := t2 + getNoteDurationMs (noteAt r.pb.melody r.pb.expectedNoteIndex).duration r.tempo
    act := WU.TimerAct.durAdvance r.pb.expectedNoteIndex
      (noteAt r.pb.melody r.pb.expectedNoteIndex).note }

/-- The operations a client can perform on the tracker singleton. -/
inductive TrackerOp where
  | press (note : String) (ts : ℚ)
  | release (note : String) (ts : ℚ)
  | wipe
deriving Repr

/-- Apply one tracker operation. -/
def applyOp (t : Tracker) : TrackerOp → Tracker
  | TrackerOp.press note ts => t.recordPress note ts
  | TrackerOp.release note ts => t.recordRelease note ts
  | TrackerOp.wipe => t.clear

/-- Run a whole history of tracker operations from startup. -/
def runOps (ops : List TrackerOp) : Tracker :=
  ops.foldl applyOp Tracker.empty

/-- The open events (releaseTime still null) recorded for an exact note name. -/
def openEventsFor (t : Tracker) (note : String) : List UserInputEvent :=
  t.events.filter (fun e => e.note == note && e.releaseTime.isNone)

/-- One-note melody used by the concrete scenarios. -/
def melC : List NoteEvent :=
  [{ note := "C4", duration := 1 }]

/-- Two-note melody used by the concrete scenarios. -/
def melCD : List NoteEvent :=
  [{ note := "C4", duration := 1 }, { note := "D4", duration := 1 }]

/-- Default PlaybackState (DEFAULT_PLAYBACK_STATE) with a given loaded melody. -/
def initPB (m : List NoteEvent) : PlaybackState :=
  { isPlaying := false, currentNoteIndex := -1, lastCompletedNoteIndex := -1, melody := m
    startAfterTs := none, expectedNoteIndex := -1, errors := [], nextNoteToPlay := none }

/-- Freshly initialized Normal engine at a given wall-clock time. -/
def NE.initState (m : List NoteEvent) (tempo now : ℚ) : NE.State :=
  { pb := initPB m, tempo := tempo, timeoutId := none, sounding := none
    tracker := Tracker.empty, timers := [], nextId := 1, now := now, audio := [] }

/-- Freshly initialized Wait-For-User engine at a given wall-clock time. -/
def WU.initState (m : List NoteEvent) (tempo now : ℚ) : WU.State :=
  { pb := initPB m, tempo := tempo, tracker := Tracker.empty, sounding := none
    polling := false, lastCheckedEventCount := 0, durTimeoutId := none
    timers := [], nextId := 1, now := now, audio := [] }

/-- Freshly initialized Error-Tracking engine at a given wall-clock time. -/
def ET.initState (m : List NoteEvent) (tempo now : ℚ) : ET.State :=
  { pb := initPB m, tempo := tempo, timeoutId := none, sounding := none
    noteStartTime := none, expectedNoteStartTime := none, tracker := Tracker.empty
    timers := [], nextId := 1, now := now, audio := [] }

/-- Tracker holding one closed C4 press (press 200, release 500), used as the
matched-event scenario for the error classifier. -/
def lateTracker : Tracker :=
  { events := [{ note := "C4", pressTime := 200, releaseTime := some 500 }]
    activePresses := [] }

/-- A sample recorded error, used to observe that stop() keeps the errors list. -/
def sampleError : PlaybackError :=
  createError ErrorType.MISSED_NOTE 0 "C4" none none none 5

/-- Normal engine state with one pending tracked timer, used to instantiate
C1's hypotheses. -/
def trackedSample : NE.State :=
  { NE.initState melC 60 0 with
    timers := [{ id := 1, fireAt := 1000, act := SeqTimerAct.advance 0 }]
    timeoutId := some 1 }

/-- Normal engine in the default state except that playback is active, used to
exercise seek-while-playing. -/
def NE.playingState (melody : List NoteEvent) (tempo now : ℚ) : NE.State :=
  { NE.initState melody tempo now with pb := { initPB melody with isPlaying := true } }

/-- Normal engine paused mid-session on the two-note melody: note 0 completed,
note 1 was sounding. -/
def sC3 : NE.State :=
  { NE.initState melCD 60 0 with
    pb := { initPB melCD with currentNoteIndex := 1, lastCompletedNoteIndex := 0 } }

/-- Normal engine playing the one-note melody at time 1000, with no pending
timer (as right after the previous note's timer fired). -/
def sC5 : NE.State :=
  { NE.initState melC 60 1000 with pb := { initPB melC with isPlaying := true } }

/-- Wait-For-User engine in the HoldingForDuration configuration for expected
note 0 of the two-note melody, after the user has already released the key
(press at 100, release at 300). -/
def sC8 : WU.State :=
  { pb := { initPB melCD with
      isPlaying := true, currentNoteIndex := 0, expectedNoteIndex := 0
      nextNoteToPlay := some "C4" }
    tempo := 60
    tracker := { events := [{ note := "C4", pressTime := 100, releaseTime := some 300 }]
                 activePresses := [] }
    sounding := some "C4", polling := true, lastCheckedEventCount := 1
    durTimeoutId := none, timers := [], nextId := 1, now := 300, audio := [] }

/-- Tracker invariant: each note has exactly one open logged event when it is
in the active-press set and none otherwise. -/
def OpenInv (t : Tracker) : Prop :=
  ∀ note, (openEventsFor t note).length = (if t.isNotePressed note then 1 else 0)

/-- Reachability invariant for the Error-Tracking engine, mirroring the Normal
engine's: every pending timer of the event loop is the one tracked by
playbackTimeoutId. -/
def ET.TimersTracked (s : ET.State) : Prop :=
  ∀ t ∈ s.timers, s.timeoutId = some t.id

/-- Error-Tracking engine state with one pending tracked timer, used to
instantiate C1's hypotheses. -/
def etTrackedSample : ET.State :=
  { ET.initState melC 60 0 with
    timers := [{ id := 1, fireAt := 1000, act := SeqTimerAct.advance 0 }]
    timeoutId := some 1 }

/-- Wait-For-User engine state with one pending tracked duration timeout, used
to instantiate C1's hypotheses. -/
def wuTrackedSample : WU.State :=
  { WU.initState melC 60 0 with
    timers := [{ id := 1, fireAt := 1000, act := WU.TimerAct.durAdvance 0 "C4" }]
    durTimeoutId := some 1 }

theorem isSameMelody_iff_eq (a b : List NoteEvent) : isSameMelody a b = true ↔ a = b := by
  induction a generalizing b with
  | nil => cases b <;> simp [isSameMelody]
  | cons x xs ih =>
    cases b with
    | nil => simp [isSameMelody]
    | cons y ys =>
      simp only [isSameMelody, Bool.and_eq_true, beq_iff_eq, List.cons.injEq, ih]
      constructor
      · rintro ⟨⟨h1, h2⟩, h3⟩
        exact ⟨by cases x; cases y; simp_all, h3⟩
      · rintro ⟨rfl, rfl⟩
        simp

/-- C9: recordRelease must close the most recent open press whenever one
exists, including one recorded at timestamp 0 — but the source guards with the
JavaScript truthiness test `if (!pressTime) return;`, so an open press stored
with the falsy timestamp 0 makes the release a silent no-op: the note stays in
the active-press set and its event is never closed, although the code's own
comment claims the early return means "No matching press found". -/
theorem C9_theorem :
    ((Tracker.empty.recordPress "C4" 0).recordRelease "C4" 100).isNotePressed "C4" = true ∧
    openEventsFor ((Tracker.empty.recordPress "C4" 0).recordRelease "C4" 100) "C4" =
      [{ note := "C4", pressTime := 0, releaseTime := none }] ∧
    ((Tracker.empty.recordPress "C4" 7).recordRelease "C4" 100).isNotePressed "C4" = false := by
  decide

/-- C1 counterexample, three divergences. (1) Wait-For-User: play a one-note
melody, press and hold C4 so the backup duration timer fires and the final-note
advance arms the anonymous auto-stop timer; a seek(0) then returns with that
timer still pending, and when wall-clock time passes its fire point the stale
stop() callback resets the currentNoteIndex that the seek had just set. (2)
Wait-For-User seek() cancels no timeout at all: right after the backup duration
timer is armed, seek(0) returns with it still pending and still tracked. (3)
Normal engine: calling play() again while note 0's timer is pending arms a
second timer without clearing the first, orphaning it; stop() then cancels only
the tracked second timer, and when the orphan fires past its due time its stale
callback overwrites lastCompletedNoteIndex after the stop. -/
theorem C1_counterexample :
    (WU.seek (WU.fireTimer
        (WU.advanceTime (WU.pollTick (WU.userPress
          (WU.advanceTime (WU.play (WU.initState melC 60 0) none) 100) "C4")) 1100) 1)
      0 0).timers ≠ [] ∧
    (WU.seek (WU.fireTimer
        (WU.advanceTime (WU.pollTick (WU.userPress
          (WU.advanceTime (WU.play (WU.initState melC 60 0) none) 100) "C4")) 1100) 1)
      0 0).pb.currentNoteIndex = 0 ∧
    (WU.fireTimer (WU.advanceTime (WU.seek (WU.fireTimer
        (WU.advanceTime (WU.pollTick (WU.userPress
          (WU.advanceTime (WU.play (WU.initState melC 60 0) none) 100) "C4")) 1100) 1)
      0 0) 2100) 2).pb.currentNoteIndex = -1 ∧
    (WU.seek (WU.pollTick (WU.userPress
        (WU.advanceTime (WU.play (WU.initState melC 60 0) none) 100) "C4")) 0 0).durTimeoutId
      = some 1 ∧
    (WU.seek (WU.pollTick (WU.userPress
        (WU.advanceTime (WU.play (WU.initState melC 60 0) none) 100) "C4")) 0 0).timers
      = (WU.pollTick (WU.userPress
        (WU.advanceTime (WU.play (WU.initState melC 60 0) none) 100) "C4")).timers ∧
    (WU.pollTick (WU.userPress
        (WU.advanceTime (WU.play (WU.initState melC 60 0) none) 100) "C4")).timers ≠ [] ∧
    (NE.stop (NE.play (NE.play (NE.initState melC 60 0) none) none)).timers ≠ [] ∧
    (NE.stop (NE.play (NE.play
        (NE.initState melC 60 0) none) none)).pb.lastCompletedNoteIndex = -1 ∧
    (NE.fireTimer (NE.advanceTime
        (NE.stop (NE.play (NE.play (NE.initState melC 60 0) none) none))
        1000) 1).pb.lastCompletedNoteIndex = 0 := by
  norm_num [WU.play, WU.initState, WU.userPress, WU.advanceTime, WU.pollTick,
    WU.checkUserInput, WU.processNewEvents, WU.fireTimer, WU.runTimerAct, WU.seek,
    WU.advanceToNextNote, WU.stop, WU.pause, WU.silence, WU.logStopNote,
    WU.clearDurTimeout, WU.setTimeout, initPB, melC, Tracker.empty, Tracker.recordPress,
    Tracker.isNotePressed, Tracker.getLatestEventForNote, Tracker.getTotalEventCount,
    Tracker.getEventsInWindow, Tracker.clear, noteAt, getNoteDurationMs, checkNoteMatch,
    truthyTs, isSameMelody, NE.play, NE.initState, NE.scheduleNextNote, NE.playAtIndex,
    NE.stop, NE.silence, NE.clearTrackedTimeout, NE.logStopNote, NE.setTimeout,
    NE.fireTimer, NE.runTimerAct, NE.advanceTime]

theorem NE.silence_timers (s : NE.State) : (NE.silence s).timers = s.timers := by
  unfold NE.silence
  cases s.sounding <;> rfl

theorem NE.silence_pb (s : NE.State) : (NE.silence s).pb = s.pb := by
  unfold NE.silence
  cases s.sounding <;> rfl

theorem NE.clearTrackedTimeout_timers_of_tracked (s : NE.State) (h : NE.TimersTracked s) :
    (NE.clearTrackedTimeout s).timers = [] := by
  unfold NE.clearTrackedTimeout
  cases hid : s.timeoutId with
  | none =>
    simp only
    refine List.eq_nil_iff_forall_not_mem.2 fun t ht => ?_
    have := h t ht
    rw [hid] at this
    exact Option.noConfusion this
  | some tid =>
    simp only
    refine List.eq_nil_iff_forall_not_mem.2 fun t ht => ?_
    rcases List.mem_filter.1 ht with ⟨hmem, hne⟩
    have := h t hmem
    rw [hid] at this
    have : tid = t.id := Option.some.inj this
    simp [this] at hne

theorem NE.stop_timers_of_tracked (s : NE.State) (h : NE.TimersTracked s) :
    (NE.stop s).timers = [] := by
  unfold NE.stop
  rw [NE.silence_timers]
  exact NE.clearTrackedTimeout_timers_of_tracked _ (fun t ht => h t ht)

theorem NE.pause_timers_of_tracked (s : NE.State) (h : NE.TimersTracked s) :
    (NE.pause s).timers = [] := by
  unfold NE.pause
  rw [NE.silence_timers]
  exact NE.clearTrackedTimeout_timers_of_tracked _ (fun t ht => h t ht)

theorem NE.logStopNote_timers (s : NE.State) : (NE.logStopNote s).timers = s.timers := by
  unfold NE.logStopNote
  cases s.sounding <;> rfl

theorem NE.logStopNote_nextId (s : NE.State) : (NE.logStopNote s).nextId = s.nextId := by
  unfold NE.logStopNote
  cases s.sounding <;> rfl

theorem NE.logStopNote_pb (s : NE.State) : (NE.logStopNote s).pb = s.pb := by
  unfold NE.logStopNote
  cases s.sounding <;> rfl

theorem NE.silence_nextId (s : NE.State) : (NE.silence s).nextId = s.nextId := by
  unfold NE.silence
  cases s.sounding <;> rfl

theorem NE.clearTrackedTimeout_nextId (s : NE.State) :
    (NE.clearTrackedTimeout s).nextId = s.nextId := by
  unfold NE.clearTrackedTimeout
  cases s.timeoutId <;> rfl

theorem NE.clearTrackedTimeout_pb (s : NE.State) : (NE.clearTrackedTimeout s).pb = s.pb := by
  unfold NE.clearTrackedTimeout
  cases s.timeoutId <;> rfl

theorem NE.clearTrackedTimeout_timers_nil (s : NE.State) (h : s.timers = []) :
    (NE.clearTrackedTimeout s).timers = [] := by
  unfold NE.clearTrackedTimeout
  cases s.timeoutId <;> simp [h]

theorem NE.stop_timers_nil (s : NE.State) (h : s.timers = []) : (NE.stop s).timers = [] := by
  unfold NE.stop
  rw [NE.silence_timers]
  exact NE.clearTrackedTimeout_timers_nil _ h

theorem NE.playAtIndex_timers_fresh (s : NE.State) (n : Nat) (h : s.timers = [])
    (hn : s.nextId = n) (i : Int) : ∀ t ∈ (NE.playAtIndex s i).timers, t.id = n := by
  intro t ht
  unfold NE.playAtIndex at ht
  split at ht
  · rw [NE.stop_timers_nil s h] at ht
    exact absurd ht (List.not_mem_nil t)
  · simp only [NE.setTimeout] at ht
    rw [NE.logStopNote_timers, h] at ht
    simp at ht
    rw [ht, NE.logStopNote_nextId, hn]

theorem NE.scheduleNextNote_timers_fresh (s : NE.State) (n : Nat) (h : s.timers = [])
    (hn : s.nextId = n) (i : Int) : ∀ t ∈ (NE.scheduleNextNote s i).timers, t.id = n := by
  intro t ht
  unfold NE.scheduleNextNote at ht
  dsimp only at ht
  split at ht
  · rw [h] at ht
    exact absurd ht (List.not_mem_nil t)
  · split at ht
    · split at ht
      · simp only [NE.setTimeout] at ht
        rw [h] at ht
        simp at ht
        rw [ht, hn]
      · refine NE.playAtIndex_timers_fresh _ n ?_ ?_ i t ht
        · exact h
        · exact hn
    · exact NE.playAtIndex_timers_fresh _ n h hn i t ht

theorem NE.fireTimer_of_no_timers (s : NE.State) (h : s.timers = []) (tid : Nat) :
    NE.fireTimer s tid = s := by
  unfold NE.fireTimer
  rw [h]
  rfl

theorem ET.silence_timersEt (s : ET.State) : (ET.silence s).timers = s.timers := by
  unfold ET.silence
  cases s.sounding <;> rfl

theorem ET.silence_nextIdEt (s : ET.State) : (ET.silence s).nextId = s.nextId := by
  unfold ET.silence
  cases s.sounding <;> rfl

theorem ET.logStopNote_timersEt (s : ET.State) : (ET.logStopNote s).timers = s.timers := by
  unfold ET.logStopNote
  cases s.sounding <;> rfl

theorem ET.logStopNote_nextIdEt (s : ET.State) : (ET.logStopNote s).nextId = s.nextId := by
  unfold ET.logStopNote
  cases s.sounding <;> rfl

theorem ET.clearTrackedTimeout_nextIdEt (s : ET.State) :
    (ET.clearTrackedTimeout s).nextId = s.nextId := by
  unfold ET.clearTrackedTimeout
  cases s.timeoutId <;> rfl

theorem ET.clearTrackedTimeout_timersEt_of_tracked (s : ET.State) (h : ET.TimersTracked s) :
    (ET.clearTrackedTimeout s).timers = [] := by
  unfold ET.clearTrackedTimeout
  cases hid : s.timeoutId with
  | none =>
    simp only
    refine List.eq_nil_iff_forall_not_mem.2 fun t ht => ?_
    have := h t ht
    rw [hid] at this
    exact Option.noConfusion this
  | some tid =>
    simp only
    refine List.eq_nil_iff_forall_not_mem.2 fun t ht => ?_
    rcases List.mem_filter.1 ht with ⟨hmem, hne⟩
    have := h t hmem
    rw [hid] at this
    have : tid = t.id := Option.some.inj this
    simp [this] at hne

theorem ET.clearTrackedTimeout_timersEt_nil (s : ET.State) (h : s.timers = []) :
    (ET.clearTrackedTimeout s).timers = [] := by
  unfold ET.clearTrackedTimeout
  cases s.timeoutId <;> simp [h]

theorem ET.recordPrevNoteErrors_timersEt (s : ET.State) (i : Int) :
    (ET.recordPrevNoteErrors s i).timers = s.timers := by
  unfold ET.recordPrevNoteErrors
  cases s.noteStartTime <;> cases s.expectedNoteStartTime <;> dsimp only <;>
    first
    | rfl
    | (split <;> rfl)

theorem ET.recordPrevNoteErrors_nextIdEt (s : ET.State) (i : Int) :
    (ET.recordPrevNoteErrors s i).nextId = s.nextId := by
  unfold ET.recordPrevNoteErrors
  cases s.noteStartTime <;> cases s.expectedNoteStartTime <;> dsimp only <;>
    first
    | rfl
    | (split <;> rfl)

theorem ET.recordLastNoteErrors_timersEt (s : ET.State) :
    (ET.recordLastNoteErrors s).timers = s.timers := by
  unfold ET.recordLastNoteErrors
  cases s.noteStartTime <;> cases s.expectedNoteStartTime <;> rfl

theorem ET.stop_timersEt_of_tracked (s : ET.State) (h : ET.TimersTracked s) :
    (ET.stop s).timers = [] := by
  unfold ET.stop
  dsimp only
  rw [ET.silence_timersEt]
  exact ET.clearTrackedTimeout_timersEt_of_tracked _ (fun t ht => h t ht)

theorem ET.pause_timersEt_of_tracked (s : ET.State) (h : ET.TimersTracked s) :
    (ET.pause s).timers = [] := by
  unfold ET.pause
  dsimp only
  rw [ET.silence_timersEt]
  exact ET.clearTrackedTimeout_timersEt_of_tracked _ (fun t ht => h t ht)

theorem ET.stop_timersEt_nil (s : ET.State) (h : s.timers = []) :
    (ET.stop s).timers = [] := by
  unfold ET.stop
  dsimp only
  rw [ET.silence_timersEt]
  exact ET.clearTrackedTimeout_timersEt_nil _ h

theorem ET.playAtIndex_timersEt_fresh (s : ET.State) (n : Nat) (h : s.timers = [])
    (hn : s.nextId = n) (i : Int) : ∀ t ∈ (ET.playAtIndex s i).timers, t.id = n := by
  intro t ht
  unfold ET.playAtIndex at ht
  dsimp only at ht
  split at ht
  · rw [ET.stop_timersEt_nil] at ht
    · exact absurd ht (List.not_mem_nil t)
    · rw [ET.recordLastNoteErrors_timersEt, ET.recordPrevNoteErrors_timersEt]
      exact h
  · simp only [ET.setTimeout] at ht
    rw [ET.logStopNote_timersEt, ET.recordPrevNoteErrors_timersEt, h] at ht
    simp at ht
    rw [ht, ET.logStopNote_nextIdEt, ET.recordPrevNoteErrors_nextIdEt, hn]

theorem ET.scheduleNextNote_timersEt_fresh (s : ET.State) (n : Nat) (h : s.timers = [])
    (hn : s.nextId = n) (i : Int) : ∀ t ∈ (ET.scheduleNextNote s i).timers, t.id = n := by
  intro t ht
  unfold ET.scheduleNextNote at ht
  dsimp only at ht
  split at ht
  · rw [h] at ht
    exact absurd ht (List.not_mem_nil t)
  · split at ht
    · split at ht
      · simp only [ET.setTimeout] at ht
        rw [h] at ht
        simp at ht
        rw [ht, hn]
      · refine ET.playAtIndex_timersEt_fresh _ n ?_ ?_ i t ht
        · exact h
        · exact hn
    · exact ET.playAtIndex_timersEt_fresh _ n h hn i t ht

theorem ET.fireTimer_of_no_timersEt (s : ET.State) (h : s.timers = []) (tid : Nat) :
    ET.fireTimer s tid = s := by
  unfold ET.fireTimer
  rw [h]
  rfl

theorem WU.silence_timersWu (s : WU.State) : (WU.silence s).timers = s.timers := by
  unfold WU.silence
  cases s.sounding <;> rfl

/-- C1, amended: cancellation only ever reaches the timer whose handle is
currently tracked. In the Normal engine, from any state whose pending timers
are exactly the one tracked by playbackTimeoutId, stop() and pause()
synchronously cancel every pending timer before returning, seek() cancels them
and leaves at most the timer it arms itself, and after stop() no amount of
elapsed time or attempted timer firing changes the state at all, so a
cancelled callback never mutates PlaybackState or re-triggers audio; the
Error-Tracking engine satisfies the same contract; and in the Wait-For-User
engine stop() and pause() remove exactly the tracked noteDurationTimeout from
the pending set. (Timers whose handle was dropped — the Wait-For-User
anonymous auto-stop and a Normal-engine timer orphaned by a re-entrant
play() — and Wait-For-User seek(), which cancels no timeout at all, escape
every cancellation path, as the counterexample shows.) -/
theorem C1_theorem (s : NE.State) (h : NE.TimersTracked s)
    (e : ET.State) (he : ET.TimersTracked e)
    (w : WU.State) (wid : Nat) (hw : w.durTimeoutId = some wid) :
    ((NE.stop s).timers = [] ∧ (NE.pause s).timers = [] ∧
      (∀ i d t, t ∈ (NE.seek s i d).timers → t.id = s.nextId) ∧
      (∀ T tid, NE.fireTimer (NE.advanceTime (NE.stop s) T) tid =
        NE.advanceTime (NE.stop s) T)) ∧
    ((ET.stop e).timers = [] ∧ (ET.pause e).timers = [] ∧
      (∀ i d t, t ∈ (ET.seek e i d).timers → t.id = e.nextId) ∧
      (∀ T tid, ET.fireTimer (ET.advanceTime (ET.stop e) T) tid =
        ET.advanceTime (ET.stop e) T)) ∧
    (WU.stop w).timers = w.timers.filter (fun t => t.id != wid) ∧
    (WU.pause w).timers = w.timers.filter (fun t => t.id != wid) := by
  refine ⟨⟨NE.stop_timers_of_tracked s h, NE.pause_timers_of_tracked s h, ?_, ?_⟩,
    ⟨ET.stop_timersEt_of_tracked e he, ET.pause_timersEt_of_tracked e he, ?_, ?_⟩, ?_, ?_⟩
  · intro i d t ht
    unfold NE.seek at ht
    dsimp only at ht
    have hnil : (NE.silence (NE.clearTrackedTimeout s)).timers = [] := by
      rw [NE.silence_timers]
      exact NE.clearTrackedTimeout_timers_of_tracked s h
    rw [hnil] at ht
    split at ht
    · refine NE.scheduleNextNote_timers_fresh _ s.nextId rfl ?_ _ t ht
      show (NE.silence (NE.clearTrackedTimeout s)).nextId = s.nextId
      rw [NE.silence_nextId, NE.clearTrackedTimeout_nextId]
    · exact absurd ht (List.not_mem_nil t)
  · intro T tid
    apply NE.fireTimer_of_no_timers
    show (NE.stop s).timers = []
    exact NE.stop_timers_of_tracked s h
  · intro i d t ht
    unfold ET.seek at ht
    dsimp only at ht
    have hnil : (ET.silence (ET.clearTrackedTimeout e)).timers = [] := by
      rw [ET.silence_timersEt]
      exact ET.clearTrackedTimeout_timersEt_of_tracked e he
    rw [hnil] at ht
    split at ht
    · refine ET.scheduleNextNote_timersEt_fresh _ e.nextId rfl ?_ _ t ht
      show (ET.silence (ET.clearTrackedTimeout e)).nextId = e.nextId
      rw [ET.silence_nextIdEt, ET.clearTrackedTimeout_nextIdEt]
    · exact absurd ht (List.not_mem_nil t)
  · intro T tid
    apply ET.fireTimer_of_no_timersEt
    show (ET.stop e).timers = []
    exact ET.stop_timersEt_of_tracked e he
  · unfold WU.stop
    dsimp only
    rw [WU.silence_timersWu]
    unfold WU.clearDurTimeout
    dsimp only
    rw [hw]
  · unfold WU.pause
    dsimp only
    rw [WU.silence_timersWu]
    unfold WU.clearDurTimeout
    dsimp only
    rw [hw]

theorem C1_witness :
    NE.TimersTracked trackedSample ∧ ET.TimersTracked etTrackedSample ∧
    wuTrackedSample.durTimeoutId = some 1 ∧
    (NE.stop trackedSample).timers = [] ∧ (ET.stop etTrackedSample).timers = [] ∧
    (WU.stop wuTrackedSample).timers = [] := by
  have h1 : NE.TimersTracked trackedSample := by
    intro t ht
    simp [trackedSample] at ht
    rw [ht]
    rfl
  have h2 : ET.TimersTracked etTrackedSample := by
    intro t ht
    simp [etTrackedSample] at ht
    rw [ht]
    rfl
  have h3 : wuTrackedSample.durTimeoutId = some 1 := rfl
  refine ⟨h1, h2, h3,
    (C1_theorem trackedSample h1 etTrackedSample h2 wuTrackedSample 1 h3).1.1,
    (C1_theorem trackedSample h1 etTrackedSample h2 wuTrackedSample 1 h3).2.1.1, ?_⟩
  rw [(C1_theorem trackedSample h1 etTrackedSample h2 wuTrackedSample 1 h3).2.2.1]
  rfl

theorem NE.pause_pb (s : NE.State) : (NE.pause s).pb = { s.pb with isPlaying := false } := by
  unfold NE.pause
  rw [NE.silence_pb, NE.clearTrackedTimeout_pb]

theorem NE.stop_pb (s : NE.State) : (NE.stop s).pb =
    { s.pb with currentNoteIndex := -1, lastCompletedNoteIndex := -1, isPlaying := false } := by
  unfold NE.stop
  rw [NE.silence_pb, NE.clearTrackedTimeout_pb]

theorem NE.silence_tracker (s : NE.State) : (NE.silence s).tracker = s.tracker := by
  unfold NE.silence
  cases s.sounding <;> rfl

theorem NE.clearTrackedTimeout_tracker (s : NE.State) :
    (NE.clearTrackedTimeout s).tracker = s.tracker := by
  unfold NE.clearTrackedTimeout
  cases s.timeoutId <;> rfl

theorem NE.stop_tracker (s : NE.State) : (NE.stop s).tracker = s.tracker := by
  unfold NE.stop
  rw [NE.silence_tracker, NE.clearTrackedTimeout_tracker]

theorem WU.silence_pbWu (s : WU.State) : (WU.silence s).pb = s.pb := by
  unfold WU.silence
  cases s.sounding <;> rfl

theorem WU.silence_trackerWu (s : WU.State) : (WU.silence s).tracker = s.tracker := by
  unfold WU.silence
  cases s.sounding <;> rfl

theorem WU.clearDurTimeout_pb (s : WU.State) : (WU.clearDurTimeout s).pb = s.pb := by
  unfold WU.clearDurTimeout
  cases s.durTimeoutId <;> rfl

theorem WU.clearDurTimeout_tracker (s : WU.State) :
    (WU.clearDurTimeout s).tracker = s.tracker := by
  unfold WU.clearDurTimeout
  cases s.durTimeoutId <;> rfl

theorem WU.stop_pbWu (s : WU.State) : (WU.stop s).pb =
    { s.pb with
      currentNoteIndex := -1
      lastCompletedNoteIndex := -1
      expectedNoteIndex := -1
      isPlaying := false
      nextNoteToPlay := none } := by
  unfold WU.stop
  dsimp only
  rw [WU.silence_pbWu, WU.clearDurTimeout_pb]

theorem WU.stop_trackerWu (s : WU.State) : (WU.stop s).tracker = Tracker.empty := by
  unfold WU.stop
  rfl

theorem ET.silence_pbEt (s : ET.State) : (ET.silence s).pb = s.pb := by
  unfold ET.silence
  cases s.sounding <;> rfl

theorem ET.clearTrackedTimeout_pbEt (s : ET.State) : (ET.clearTrackedTimeout s).pb = s.pb := by
  unfold ET.clearTrackedTimeout
  cases s.timeoutId <;> rfl

theorem ET.stop_pbEt (s : ET.State) : (ET.stop s).pb =
    { s.pb with currentNoteIndex := -1, lastCompletedNoteIndex := -1, isPlaying := false } := by
  unfold ET.stop
  dsimp only
  rw [ET.silence_pbEt, ET.clearTrackedTimeout_pbEt]

theorem ET.stop_trackerEt (s : ET.State) : (ET.stop s).tracker = Tracker.empty := by
  unfold ET.stop
  rfl

/-- C2 counterexample: in the Wait-For-User engine, stop() from a state with a
recorded error leaves the errors list intact — contrary to the claim that
stop() clears the errors list in every engine — and in the Normal engine
stop() leaves the User Input Tracker untouched as well. -/
theorem C2_counterexample :
    (WU.stop { WU.initState melC 60 0 with
        pb := { initPB melC with errors := [sampleError] } }).pb.errors = [sampleError] ∧
    (NE.stop { NE.initState melC 60 0 with
        tracker := Tracker.empty.recordPress "D4" 3 }).tracker =
      Tracker.empty.recordPress "D4" 3 := by
  constructor
  · rw [WU.stop_pbWu]
  · rw [NE.stop_tracker]

/-- C2, amended: in every engine stop() resets currentNoteIndex and
lastCompletedNoteIndex to -1 and sets isPlaying to false; the Wait-For-User
engine additionally resets expectedNoteIndex to -1, clears nextNoteToPlay and
clears the User Input Tracker; the Error-Tracking engine also clears the
tracker but, like the Normal engine, never touches expectedNoteIndex; no
engine clears the errors list, and the Normal engine does not clear the
tracker. -/
theorem C2_theorem (s1 : NE.State) (s2 : WU.State) (s3 : ET.State) :
    ((NE.stop s1).pb.currentNoteIndex = -1 ∧ (NE.stop s1).pb.lastCompletedNoteIndex = -1 ∧
      (NE.stop s1).pb.isPlaying = false ∧ (NE.stop s1).pb.errors = s1.pb.errors ∧
      (NE.stop s1).tracker = s1.tracker ∧
      (NE.stop s1).pb.expectedNoteIndex = s1.pb.expectedNoteIndex) ∧
    ((WU.stop s2).pb.currentNoteIndex = -1 ∧ (WU.stop s2).pb.lastCompletedNoteIndex = -1 ∧
      (WU.stop s2).pb.expectedNoteIndex = -1 ∧ (WU.stop s2).pb.isPlaying = false ∧
      (WU.stop s2).pb.nextNoteToPlay = none ∧ (WU.stop s2).tracker = Tracker.empty ∧
      (WU.stop s2).pb.errors = s2.pb.errors) ∧
    ((ET.stop s3).pb.currentNoteIndex = -1 ∧ (ET.stop s3).pb.lastCompletedNoteIndex = -1 ∧
      (ET.stop s3).pb.isPlaying = false ∧ (ET.stop s3).tracker = Tracker.empty ∧
      (ET.stop s3).pb.errors = s3.pb.errors ∧
      (ET.stop s3).pb.expectedNoteIndex = s3.pb.expectedNoteIndex) := by
  refine ⟨?_, ?_, ?_⟩
  · rw [NE.stop_pb, NE.stop_tracker]
    simp
  · rw [WU.stop_pbWu, WU.stop_trackerWu]
    simp
  · rw [ET.stop_pbEt, ET.stop_trackerEt]
    simp

/-- C4 counterexample: on a two-note melody, seek(-5) clamps to -1 and the
code then stores max(-1, -2) = -1 into lastCompletedNoteIndex, not the
clamped-index-minus-one (-2) the claim asserts for every integer index. -/
theorem C4_counterexample :
    (NE.seek (NE.initState melCD 60 0) (-5) 0).pb.currentNoteIndex = -1 ∧
    (NE.seek (NE.initState melCD 60 0) (-5) 0).pb.lastCompletedNoteIndex = -1 ∧
    (NE.seek (NE.initState melCD 60 0) (-5) 0).pb.lastCompletedNoteIndex ≠
      (NE.seek (NE.initState melCD 60 0) (-5) 0).pb.currentNoteIndex - 1 := by
  norm_num [NE.seek, NE.initState, NE.silence, NE.clearTrackedTimeout, initPB, melCD]

theorem NE.playAtIndex_pb_current (s : NE.State) (i : Int) (_h0 : 0 ≤ i)
    (hl : i < (s.pb.melody.length : Int)) :
    (NE.playAtIndex s i).pb.currentNoteIndex = i ∧
    (NE.playAtIndex s i).pb.lastCompletedNoteIndex = s.pb.lastCompletedNoteIndex := by
  unfold NE.playAtIndex
  rw [if_neg (by omega)]
  dsimp only
  simp [NE.setTimeout, NE.logStopNote_pb]

theorem NE.scheduleNextNote_pb_current (s : NE.State) (i : Int)
    (hp : s.pb.isPlaying = true) (hc : s.pb.currentNoteIndex = i)
    (h0 : 0 ≤ i) (hl : i < (s.pb.melody.length : Int)) :
    (NE.scheduleNextNote s i).pb.currentNoteIndex = i ∧
    (NE.scheduleNextNote s i).pb.lastCompletedNoteIndex = s.pb.lastCompletedNoteIndex := by
  unfold NE.scheduleNextNote
  rw [if_neg (by rw [hp]; simp)]
  dsimp only
  split
  · split
    · simp only [NE.setTimeout]
      exact ⟨hc, trivial⟩
    · have := NE.playAtIndex_pb_current
        { s with pb := { s.pb with startAfterTs := none } } i h0 (by simpa using hl)
      simpa using this
  · exact NE.playAtIndex_pb_current s i h0 hl

/-- C4, amended: seek(index, delayMs) clamps the index to
[-1, melody.length - 1], sets currentNoteIndex to the clamped index and sets
lastCompletedNoteIndex to max(-1, clamped - 1) — equal to clamped - 1 whenever
the clamped index is at least 0, but floored at -1 (not -2) when the clamped
index is -1; in particular seek(-5) yields currentNoteIndex -1 and, on a
non-empty melody, seek(melody.length + 5) yields melody.length - 1. -/
theorem C4_theorem (s : NE.State) (i : Int) (d : ℚ) :
    (NE.seek s i d).pb.currentNoteIndex =
      max (-1) (min i ((s.pb.melody.length : Int) - 1)) ∧
    (NE.seek s i d).pb.lastCompletedNoteIndex =
      max (-1) (max (-1) (min i ((s.pb.melody.length : Int) - 1)) - 1) := by
  unfold NE.seek
  dsimp only
  rw [NE.silence_pb, NE.clearTrackedTimeout_pb]
  split
  · rename_i hcond
    have h1 : (-1 : Int) ≤ (s.pb.melody.length : Int) - 1 := by
      have hnn : (0 : Int) ≤ (s.pb.melody.length : Int) := Int.ofNat_nonneg _
      omega
    have hle : max (-1) (min i ((s.pb.melody.length : Int) - 1)) ≤
        (s.pb.melody.length : Int) - 1 := max_le h1 (min_le_right _ _)
    refine NE.scheduleNextNote_pb_current _ _ ?_ ?_ ?_ ?_
    · exact hcond.1
    · rfl
    · exact hcond.2
    · show max (-1) (min i ((s.pb.melody.length : Int) - 1)) < (s.pb.melody.length : Int)
      omega
  · simp

theorem NE.playAtIndex_pb_melody (s : NE.State) (i : Int) :
    (NE.playAtIndex s i).pb.melody = s.pb.melody := by
  unfold NE.playAtIndex
  split
  · rw [NE.stop_pb]
  · dsimp only
    simp [NE.setTimeout, NE.logStopNote_pb]

theorem NE.playAtIndex_timer_armed (s : NE.State) (i : Int)
    (hl : i < (s.pb.melody.length : Int)) :
    ∃ t ∈ (NE.playAtIndex s i).timers, t.act = SeqTimerAct.advance i := by
  unfold NE.playAtIndex
  rw [if_neg (by omega)]
  dsimp only
  simp only [NE.setTimeout]
  refine ⟨_, List.mem_append_right _ (List.mem_singleton_self _), rfl⟩

theorem NE.play_structEq (s : NE.State) (A : List NoteEvent)
    (h : isSameMelody A s.pb.melody = true) : NE.play s (some A) = NE.play s none := by
  unfold NE.play
  dsimp only
  rw [h]
  simp

/-- C3: after pause(), a play() call with no melody argument — or with a
melody structurally equal to the loaded one — re-enters the scheduler exactly
at lastCompletedNoteIndex + 1 (index 0 when nothing is completed): when that
index is still within the melody it becomes the new currentNoteIndex, the
completion high-water mark and the melody are untouched, and the armed timer
completes exactly that index, so no completed note is replayed and none is
skipped; when every note was already completed the scheduler immediately
performs the terminal auto-stop. -/
theorem C3_theorem (s : NE.State) (A : Option (List NoteEvent))
    (hA : A = none ∨ A = some s.pb.melody)
    (h1 : s.pb.melody ≠ []) (h2 : -1 ≤ s.pb.lastCompletedNoteIndex) :
    (s.pb.lastCompletedNoteIndex + 1 < (s.pb.melody.length : Int) →
      (NE.play (NE.pause s) A).pb.currentNoteIndex = s.pb.lastCompletedNoteIndex + 1 ∧
      (NE.play (NE.pause s) A).pb.lastCompletedNoteIndex = s.pb.lastCompletedNoteIndex ∧
      (NE.play (NE.pause s) A).pb.melody = s.pb.melody ∧
      ∃ t ∈ (NE.play (NE.pause s) A).timers,
        t.act = SeqTimerAct.advance (s.pb.lastCompletedNoteIndex + 1)) ∧
    ((s.pb.melody.length : Int) ≤ s.pb.lastCompletedNoteIndex + 1 →
      (NE.play (NE.pause s) A).pb.currentNoteIndex = -1 ∧
      (NE.play (NE.pause s) A).pb.lastCompletedNoteIndex = -1 ∧
      (NE.play (NE.pause s) A).pb.isPlaying = false) := by
  have hAeq : NE.play (NE.pause s) A = NE.play (NE.pause s) none := by
    rcases hA with rfl | rfl
    · rfl
    · refine NE.play_structEq _ _ ?_
      rw [NE.pause_pb]
      exact (isSameMelody_iff_eq _ _).2 rfl
  rw [hAeq]
  unfold NE.play
  dsimp only
  rw [NE.pause_pb]
  dsimp only
  rw [if_neg (by simpa [List.length_eq_zero] using h1)]
  have hstart : (if s.pb.lastCompletedNoteIndex < 0 then (0 : Int)
      else s.pb.lastCompletedNoteIndex + 1) = s.pb.lastCompletedNoteIndex + 1 := by
    split <;> omega
  rw [hstart]
  unfold NE.scheduleNextNote
  dsimp only
  rw [if_neg (by simp), if_neg (by simp [truthyTs])]
  constructor
  · intro h3
    refine ⟨?_, ?_, ?_, ?_⟩
    · exact (NE.playAtIndex_pb_current _ _ (by omega) (by simpa using h3)).1
    · exact (NE.playAtIndex_pb_current _ _ (by omega) (by simpa using h3)).2
    · rw [NE.playAtIndex_pb_melody]
    · exact NE.playAtIndex_timer_armed _ _ (by simpa using h3)
  · intro h4
    unfold NE.playAtIndex
    rw [if_pos (by simpa using h4), NE.stop_pb]
    simp

theorem C3_witness :
    (sC3.pb.melody ≠ [] ∧ -1 ≤ sC3.pb.lastCompletedNoteIndex ∧
      sC3.pb.lastCompletedNoteIndex + 1 < (sC3.pb.melody.length : Int)) ∧
    (NE.play (NE.pause sC3) none).pb.currentNoteIndex = 1 ∧
    (NE.play (NE.pause sC3) none).pb.lastCompletedNoteIndex = 0 := by
  have h1 : sC3.pb.melody ≠ [] := by
    simp [sC3, NE.initState, initPB, melCD]
  have h2 : (-1 : Int) ≤ sC3.pb.lastCompletedNoteIndex := by
    simp [sC3, NE.initState, initPB]
  have h3 : sC3.pb.lastCompletedNoteIndex + 1 < (sC3.pb.melody.length : Int) := by
    simp [sC3, NE.initState, initPB, melCD]
  have hm := (C3_theorem sC3 none (Or.inl rfl) h1 h2).1 h3
  refine ⟨⟨h1, h2, h3⟩, ?_, ?_⟩
  · rw [hm.1]
    rfl
  · rw [hm.2.1]
    rfl

/-- C5 counterexample: with the engine paused, seek(0, 500) at time 1000
records startAfterTs = 1500, but the subsequent play() clears startAfterTs
unconditionally and sounds the first note immediately at time 1000 — it does
not wait until the recorded start timestamp, contrary to the claim that a
play() after a paused seek honours the delay. -/
theorem C5_counterexample :
    (NE.seek (NE.initState melC 60 1000) 0 500).pb.startAfterTs = some 1500 ∧
    (NE.seek (NE.initState melC 60 1000) 0 500).pb.isPlaying = false ∧
    (NE.play (NE.seek (NE.initState melC 60 1000) 0 500) none).pb.startAfterTs = none ∧
    (NE.play (NE.seek (NE.initState melC 60 1000) 0 500) none).audio =
      [AudioCall.played "C4"] ∧
    (NE.play (NE.seek (NE.initState melC 60 1000) 0 500) none).now = 1000 := by
  norm_num [NE.seek, NE.play, NE.scheduleNextNote, NE.playAtIndex, NE.stop, NE.silence,
    NE.logStopNote, NE.clearTrackedTimeout, NE.setTimeout, NE.initState, initPB, melC,
    noteAt, getNoteDurationMs, truthyTs, isSameMelody]

/-- C5, amended: seek(i, delayMs) with delayMs greater than 0 records
startAfterTs = now + delayMs, and when the seek happens while playing the
re-entered scheduler honours it: the seek itself sounds nothing and arms only
a delayed-start timer for the target timestamp, and when that timer fires at
or after startAfterTs the scheduler clears startAfterTs and sounds note i. A
subsequent play() call, however, always clears startAfterTs before scheduling
(the paused-seek-then-play case starts immediately, as the counterexample
shows). -/
theorem C5_theorem (melody : List NoteEvent) (i : Int) (d now tempo T : ℚ)
    (hd : 0 < d) (hnow : 0 ≤ now) (h0 : 0 ≤ i) (hl : i < (melody.length : Int))
    (hT : now + d ≤ T) :
    (NE.seek (NE.playingState melody tempo now) i d).pb.startAfterTs = some (now + d) ∧
    (NE.seek (NE.playingState melody tempo now) i d).pb.currentNoteIndex = i ∧
    (NE.seek (NE.playingState melody tempo now) i d).audio = [] ∧
    (NE.seek (NE.playingState melody tempo now) i d).timers =
      [{ id := 1, fireAt := now + d, act := SeqTimerAct.delayed i }] ∧
    (NE.fireTimer (NE.advanceTime (NE.seek (NE.playingState melody tempo now) i d) T)
      1).pb.startAfterTs = none ∧
    (NE.fireTimer (NE.advanceTime (NE.seek (NE.playingState melody tempo now) i d) T)
      1).pb.currentNoteIndex = i ∧
    AudioCall.played (noteAt melody i).note ∈
      (NE.fireTimer (NE.advanceTime (NE.seek (NE.playingState melody tempo now) i d) T)
        1).audio := by
  have hmin : min i ((melody.length : Int) - 1) = i := min_eq_left (by omega)
  have hmax : max (-1) i = i := max_eq_right (by omega)
  have hne : now + d ≠ 0 := ne_of_gt (by linarith)
  have hTmax : max now T = T := max_eq_right (by linarith)
  have hs1 : NE.seek (NE.playingState melody tempo now) i d =
      { pb := { isPlaying := true, currentNoteIndex := i,
                lastCompletedNoteIndex := max (-1) (i - 1), melody := melody,
                startAfterTs := some (now + d), expectedNoteIndex := -1,
                errors := [], nextNoteToPlay := none }
        tempo := tempo, timeoutId := some 1, sounding := none, tracker := Tracker.empty
        timers := [{ id := 1, fireAt := now + d, act := SeqTimerAct.delayed i }]
        nextId := 2, now := now, audio := [] } := by
    simp [NE.seek, NE.playingState, NE.initState, initPB, NE.silence, NE.clearTrackedTimeout,
      NE.scheduleNextNote, NE.setTimeout, truthyTs, hmin, hmax, hd, h0, hne]
  rw [hs1]
  have harm : ¬ (0 : ℚ) < now + d - T := by linarith
  refine ⟨rfl, rfl, rfl, rfl, ?_, ?_, ?_⟩ <;>
    simp [NE.fireTimer, NE.advanceTime, NE.runTimerAct, NE.scheduleNextNote, NE.playAtIndex,
      NE.setTimeout, NE.logStopNote, NE.stop, NE.silence, NE.clearTrackedTimeout,
      truthyTs, hTmax, hT, hne, harm, hl, not_le.2 (by omega : i < (melody.length : Int))]

theorem C5_witness :
    ((0 : ℚ) < 500 ∧ (0 : ℚ) ≤ 1000 ∧ (0 : Int) ≤ 0 ∧ (0 : Int) < (melC.length : Int) ∧
      (1000 : ℚ) + 500 ≤ 1500) ∧
    (NE.seek (NE.playingState melC 60 1000) 0 500).pb.startAfterTs = some 1500 ∧
    (NE.fireTimer (NE.advanceTime (NE.seek (NE.playingState melC 60 1000) 0 500) 1500)
      1).pb.startAfterTs = none ∧
    AudioCall.played "C4" ∈
      (NE.fireTimer (NE.advanceTime (NE.seek (NE.playingState melC 60 1000) 0 500) 1500)
        1).audio := by
  have h1 : (0 : ℚ) < 500 := by norm_num
  have h2 : (0 : ℚ) ≤ 1000 := by norm_num
  have h3 : (0 : Int) ≤ 0 := le_refl 0
  have h4 : (0 : Int) < (melC.length : Int) := by norm_num [melC]
  have h5 : (1000 : ℚ) + 500 ≤ 1500 := by norm_num
  have hm := C5_theorem melC 0 500 1000 60 1500 h1 h2 h3 h4 h5
  refine ⟨⟨h1, h2, h3, h4, h5⟩, ?_, ?_, ?_⟩
  · rw [hm.1]
    norm_num
  · exact hm.2.2.2.2.1
  · have hmem := hm.2.2.2.2.2.2
    simpa [noteAt, melC] using hmem

/-- C6 counterexample: play() with a freshly allocated but structurally equal
melody does not leave currentNoteIndex unchanged as the claim states — the
call continues into the scheduler, which moves currentNoteIndex from -1 to 0
(the melody itself and the completion high-water mark are preserved; what the
equality check prevents is only the new-session reset). -/
theorem C6_counterexample :
    isSameMelody [{ note := "C4", duration := 1 }] (NE.initState melC 60 0).pb.melody = true ∧
    (NE.initState melC 60 0).pb.currentNoteIndex = -1 ∧
    (NE.play (NE.initState melC 60 0)
      (some [{ note := "C4", duration := 1 }])).pb.currentNoteIndex = 0 := by
  norm_num [NE.play, NE.scheduleNextNote, NE.playAtIndex, NE.stop, NE.silence,
    NE.logStopNote, NE.clearTrackedTimeout, NE.setTimeout, NE.initState, initPB, melC,
    noteAt, getNoteDurationMs, truthyTs, isSameMelody]

theorem NE.scheduleNextNote_pb_melody (s : NE.State) (i : Int) :
    (NE.scheduleNextNote s i).pb.melody = s.pb.melody := by
  unfold NE.scheduleNextNote
  dsimp only
  split
  · rfl
  · split
    · split
      · simp [NE.setTimeout]
      · simp [NE.playAtIndex_pb_melody]
    · exact NE.playAtIndex_pb_melody s i

theorem NE.play_none_melody (s : NE.State) : (NE.play s none).pb.melody = s.pb.melody := by
  unfold NE.play
  dsimp only
  split
  · rfl
  · simp [NE.scheduleNextNote_pb_melody]

/-- C6, amended: play(A) with A structurally equal to the loaded melody (same
length and pointwise equal note and duration) skips the melody-replacement
step entirely — the call behaves exactly like play() with no argument, so the
melody and the in-progress session are preserved and the scheduler simply
resumes (updating currentNoteIndex to the resume index as it does on any
play). With A structurally different, play(A) replaces the melody and resets
currentNoteIndex and lastCompletedNoteIndex to -1; for non-empty A the
scheduler then starts the new session at index 0. -/
theorem C6_theorem (s : NE.State) (A : List NoteEvent) :
    (isSameMelody A s.pb.melody = true →
      NE.play s (some A) = NE.play s none ∧
      (NE.play s (some A)).pb.melody = s.pb.melody) ∧
    (isSameMelody A s.pb.melody = false → A ≠ [] →
      (NE.play s (some A)).pb.melody = A ∧
      (NE.play s (some A)).pb.currentNoteIndex = 0 ∧
      (NE.play s (some A)).pb.lastCompletedNoteIndex = -1) ∧
    (isSameMelody A s.pb.melody = false → A = [] →
      (NE.play s (some A)).pb.melody = [] ∧
      (NE.play s (some A)).pb.currentNoteIndex = -1 ∧
      (NE.play s (some A)).pb.lastCompletedNoteIndex = -1 ∧
      (NE.play s (some A)).pb.isPlaying = s.pb.isPlaying) := by
  refine ⟨?_, ?_, ?_⟩
  · intro h
    refine ⟨NE.play_structEq s A h, ?_⟩
    rw [NE.play_structEq s A h, NE.play_none_melody]
  · intro h hne
    unfold NE.play
    dsimp only
    rw [h]
    simp only [Bool.false_eq_true, if_false]
    rw [if_neg (by simpa [List.length_eq_zero] using hne)]
    have hlen : (0 : Int) < (A.length : Int) := by
      have := List.length_pos.2 hne
      omega
    have hstart : (if (-1 : Int) < 0 then (0 : Int) else (-1 : Int) + 1) = 0 := by norm_num
    rw [hstart]
    unfold NE.scheduleNextNote
    dsimp only
    rw [if_neg (by simp), if_neg (by simp [truthyTs])]
    refine ⟨?_, ?_, ?_⟩
    · exact NE.playAtIndex_pb_melody _ 0
    · exact (NE.playAtIndex_pb_current _ 0 le_rfl (by simpa using hlen)).1
    · exact (NE.playAtIndex_pb_current _ 0 le_rfl (by simpa using hlen)).2
  · intro h he
    subst he
    unfold NE.play
    dsimp only
    rw [h]
    simp

theorem C6_witness :
    (isSameMelody [{ note := "C4", duration := 1 }, { note := "D4", duration := 1 }]
        (NE.initState melCD 60 0).pb.melody = true ∧
      (NE.play (NE.initState melCD 60 0)
        (some [{ note := "C4", duration := 1 }, { note := "D4", duration := 1 }])).pb.melody =
        melCD) ∧
    (isSameMelody melC (NE.initState melCD 60 0).pb.melody = false ∧ melC ≠ [] ∧
      (NE.play (NE.initState melCD 60 0) (some melC)).pb.melody = melC ∧
      (NE.play (NE.initState melCD 60 0) (some melC)).pb.currentNoteIndex = 0 ∧
      (NE.play (NE.initState melCD 60 0) (some melC)).pb.lastCompletedNoteIndex = -1) := by
  have hsame : isSameMelody [{ note := "C4", duration := 1 }, { note := "D4", duration := 1 }]
      (NE.initState melCD 60 0).pb.melody = true := by
    simp [isSameMelody, NE.initState, initPB, melCD]
  have hdiff : isSameMelody melC (NE.initState melCD 60 0).pb.melody = false := by
    simp [isSameMelody, NE.initState, initPB, melCD, melC]
  have hne : melC ≠ [] := by simp [melC]
  have hb1 := (C6_theorem (NE.initState melCD 60 0)
    [{ note := "C4", duration := 1 }, { note := "D4", duration := 1 }]).1 hsame
  have hb2 := (C6_theorem (NE.initState melCD 60 0) melC).2.1 hdiff hne
  exact ⟨⟨hsame, hb1.2⟩, ⟨hdiff, hne, hb2.1, hb2.2.1, hb2.2.2⟩⟩

theorem ET.recordPrevNoteErrors_pb_current (s : ET.State) (i : Int) :
    (ET.recordPrevNoteErrors s i).pb.currentNoteIndex = s.pb.currentNoteIndex := by
  unfold ET.recordPrevNoteErrors
  split
  · split <;> rfl
  · rfl

theorem ET.recordPrevNoteErrors_pb_melody (s : ET.State) (i : Int) :
    (ET.recordPrevNoteErrors s i).pb.melody = s.pb.melody := by
  unfold ET.recordPrevNoteErrors
  split
  · split <;> rfl
  · rfl

theorem ET.recordPrevNoteErrors_pb_lastCompleted (s : ET.State) (i : Int) :
    (ET.recordPrevNoteErrors s i).pb.lastCompletedNoteIndex =
      s.pb.lastCompletedNoteIndex := by
  unfold ET.recordPrevNoteErrors
  split
  · split <;> rfl
  · rfl

theorem ET.logStopNote_pbEt (s : ET.State) : (ET.logStopNote s).pb = s.pb := by
  unfold ET.logStopNote
  cases s.sounding <;> rfl

theorem ET.playAtIndex_pb_currentEt (s : ET.State) (i : Int)
    (hl : i < (s.pb.melody.length : Int)) :
    (ET.playAtIndex s i).pb.currentNoteIndex = i ∧
    (ET.playAtIndex s i).pb.lastCompletedNoteIndex = s.pb.lastCompletedNoteIndex := by
  unfold ET.playAtIndex
  dsimp only
  rw [ET.recordPrevNoteErrors_pb_melody, if_neg (by omega)]
  constructor
  · simp [ET.setTimeout, ET.logStopNote_pbEt]
  · simp [ET.setTimeout, ET.logStopNote_pbEt, ET.recordPrevNoteErrors_pb_lastCompleted]

theorem ET.advance_sets_indices (s : ET.State) (j : Int) (hp : s.pb.isPlaying = true)
    (hts : truthyTs s.pb.startAfterTs = false) (hl : j + 1 < (s.pb.melody.length : Int)) :
    (ET.runTimerAct s (SeqTimerAct.advance j)).pb.currentNoteIndex = j + 1 ∧
    (ET.runTimerAct s (SeqTimerAct.advance j)).pb.lastCompletedNoteIndex = j := by
  unfold ET.runTimerAct ET.scheduleNextNote
  dsimp only
  rw [if_neg (by simp [hp]), if_neg (by simp [hts])]
  have := ET.playAtIndex_pb_currentEt
    { s with pb := { s.pb with lastCompletedNoteIndex := j } } (j + 1) (by simpa using hl)
  simpa using this

theorem checkNoteErrors_matched (tracker : Tracker) (tempo now : ℚ) (i : Int)
    (en : NoteEvent) (st : ℚ) (m : UserInputEvent)
    (hf : (tracker.getEventsInWindow st now).find?
      (fun ev => checkNoteMatch en.note ev.note) = some m) :
    ((∃ e ∈ checkNoteErrors tracker tempo now i en st, e.type = ErrorType.TOO_EARLY) ↔
      calculateTimingError st m.pressTime < -100) ∧
    ((∃ e ∈ checkNoteErrors tracker tempo now i en st, e.type = ErrorType.TOO_LATE) ↔
      100 < calculateTimingError st m.pressTime) ∧
    ((∃ e ∈ checkNoteErrors tracker tempo now i en st, e.type = ErrorType.WRONG_DURATION) ↔
      ∃ rt, m.releaseTime = some rt ∧
        checkDurationMatch (getNoteDurationMs en.duration tempo) (rt - m.pressTime) 150 =
          false) ∧
    (∀ e ∈ checkNoteErrors tracker tempo now i en st,
      e.type ≠ ErrorType.MISSED_NOTE ∧ e.type ≠ ErrorType.WRONG_NOTE) := by
  rcases hW : tracker.getEventsInWindow st now with _ | ⟨first, rest⟩
  · rw [hW] at hf
    simp at hf
  · unfold checkNoteErrors
    rw [hW] at hf
    dsimp only
    rw [hW]
    dsimp only
    rw [hf]
    dsimp only
    rcases hr : m.releaseTime with _ | rt
    · dsimp only
      split
      · refine ⟨?_, ?_, ?_, ?_⟩ <;> simp_all [createError] <;> linarith
      · split
        · refine ⟨?_, ?_, ?_, ?_⟩ <;> simp_all [createError] <;> linarith
        · refine ⟨?_, ?_, ?_, ?_⟩ <;> simp_all [createError] <;> linarith
    · dsimp only
      split
      · split
        · refine ⟨?_, ?_, ?_, ?_⟩ <;> simp_all [createError] <;> linarith
        · refine ⟨?_, ?_, ?_, ?_⟩ <;> simp_all [createError] <;> linarith
      · split
        · split
          · refine ⟨?_, ?_, ?_, ?_⟩ <;> simp_all [createError] <;> linarith
          · refine ⟨?_, ?_, ?_, ?_⟩ <;> simp_all [createError] <;> linarith
        · split
          · refine ⟨?_, ?_, ?_, ?_⟩ <;> simp_all [createError] <;> linarith
          · refine ⟨?_, ?_, ?_, ?_⟩ <;> simp_all [createError] <;> linarith

/-- C7: the Error-Tracking classifier evaluates a finished note against the
user input events whose press time falls in the note's sounding window, first
applicable rule winning: an empty window records exactly one MISSED_NOTE; a
non-empty window with no pitch-matching event (exact, octave included) records
exactly one WRONG_NOTE whose actualNote is the first event of the window; and
for a matched event it records TOO_EARLY exactly when the press is more than
100ms before the window start, TOO_LATE exactly when more than 100ms after,
and WRONG_DURATION exactly when the event was released and its held duration
misses the nominal duration by more than 150ms — so a timing error and a
duration error can coexist for one note, and neither MISSED_NOTE nor
WRONG_NOTE ever accompanies a match. Recording never blocks advancement: the
completion callback of note j always moves currentNoteIndex to j + 1 and
lastCompletedNoteIndex to j, whatever the tracker contains. -/
theorem C7_theorem (tracker : Tracker) (tempo now : ℚ) (i : Int) (en : NoteEvent)
    (st : ℚ) :
    (tracker.getEventsInWindow st now = [] →
      checkNoteErrors tracker tempo now i en st =
        [createError ErrorType.MISSED_NOTE i en.note none none none now]) ∧
    (∀ first rest, tracker.getEventsInWindow st now = first :: rest →
      (tracker.getEventsInWindow st now).find?
        (fun ev => checkNoteMatch en.note ev.note) = none →
      checkNoteErrors tracker tempo now i en st =
        [createError ErrorType.WRONG_NOTE i en.note (some first.note) none none now]) ∧
    (∀ m, (tracker.getEventsInWindow st now).find?
        (fun ev => checkNoteMatch en.note ev.note) = some m →
      ((∃ e ∈ checkNoteErrors tracker tempo now i en st, e.type = ErrorType.TOO_EARLY) ↔
        calculateTimingError st m.pressTime < -100) ∧
      ((∃ e ∈ checkNoteErrors tracker tempo now i en st, e.type = ErrorType.TOO_LATE) ↔
        100 < calculateTimingError st m.pressTime) ∧
      ((∃ e ∈ checkNoteErrors tracker tempo now i en st,
          e.type = ErrorType.WRONG_DURATION) ↔
        ∃ rt, m.releaseTime = some rt ∧
          checkDurationMatch (getNoteDurationMs en.duration tempo) (rt - m.pressTime) 150 =
            false) ∧
      (∀ e ∈ checkNoteErrors tracker tempo now i en st,
        e.type ≠ ErrorType.MISSED_NOTE ∧ e.type ≠ ErrorType.WRONG_NOTE)) ∧
    (∀ (s : ET.State) (j : Int), s.pb.isPlaying = true →
      truthyTs s.pb.startAfterTs = false → j + 1 < (s.pb.melody.length : Int) →
      (ET.runTimerAct s (SeqTimerAct.advance j)).pb.currentNoteIndex = j + 1 ∧
      (ET.runTimerAct s (SeqTimerAct.advance j)).pb.lastCompletedNoteIndex = j) := by
  refine ⟨?_, ?_, ?_, ?_⟩
  · intro h
    unfold checkNoteErrors
    dsimp only
    rw [h]
  · intro first rest hW hf
    unfold checkNoteErrors
    rw [hW] at hf
    dsimp only
    rw [hW]
    dsimp only
    rw [hf]
  · intro m hf
    exact checkNoteErrors_matched tracker tempo now i en st m hf
  · intro s j hp hts hl
    exact ET.advance_sets_indices s j hp hts hl

theorem C7_witness :
    (Tracker.empty.getEventsInWindow 0 1000 = [] ∧
      checkNoteErrors Tracker.empty 60 1000 0 { note := "C4", duration := 1 } 0 =
        [createError ErrorType.MISSED_NOTE 0 "C4" none none none 1000]) ∧
    ((lateTracker.getEventsInWindow 0 1000).find?
        (fun ev => checkNoteMatch "C4" ev.note) =
      some { note := "C4", pressTime := 200, releaseTime := some 500 } ∧
    (∃ e ∈ checkNoteErrors lateTracker 60 1000 0 { note := "C4", duration := 1 } 0,
      e.type = ErrorType.TOO_LATE) ∧
    (∃ e ∈ checkNoteErrors lateTracker 60 1000 0 { note := "C4", duration := 1 } 0,
      e.type = ErrorType.WRONG_DURATION) ∧
    ¬ (∃ e ∈ checkNoteErrors lateTracker 60 1000 0 { note := "C4", duration := 1 } 0,
      e.type = ErrorType.TOO_EARLY)) := by
  have hempty : Tracker.empty.getEventsInWindow 0 1000 = [] := rfl
  have hfind : (lateTracker.getEventsInWindow 0 1000).find?
      (fun ev => checkNoteMatch "C4" ev.note) =
      some { note := "C4", pressTime := 200, releaseTime := some 500 } := by
    norm_num [lateTracker, Tracker.getEventsInWindow, checkNoteMatch]
  have hmatched := (C7_theorem lateTracker 60 1000 0 { note := "C4", duration := 1 } 0).2.2.1
    { note := "C4", pressTime := 200, releaseTime := some 500 } hfind
  refine ⟨⟨hempty, (C7_theorem Tracker.empty 60 1000 0 { note := "C4", duration := 1 } 0).1
    hempty⟩, hfind, ?_, ?_, ?_⟩
  · exact hmatched.2.1.2 (by norm_num [calculateTimingError])
  · refine hmatched.2.2.1.2 ⟨500, rfl, ?_⟩
    norm_num [checkDurationMatch, getNoteDurationMs]
  · intro hex
    have := hmatched.1.1 hex
    norm_num [calculateTimingError] at this

theorem WU.silence_eq (s : WU.State) : WU.silence s =
    { s with sounding := none
             audio := s.audio ++ (match s.sounding with
               | some n => [AudioCall.stopped n]
               | none => []) } := by
  cases hs : s.sounding with
  | none =>
    simp only [WU.silence, hs, List.append_nil]
    rw [← hs]
  | some n => simp [WU.silence, hs]

theorem WU.clearDurTimeout_eq (s : WU.State) : WU.clearDurTimeout s =
    { s with durTimeoutId := none
             timers := match s.durTimeoutId with
               | some tid => s.timers.filter (fun t => t.id != tid)
               | none => s.timers } := by
  cases hd : s.durTimeoutId with
  | none =>
    simp only [WU.clearDurTimeout, hd]
    rw [← hd]
  | some tid => simp [WU.clearDurTimeout, hd]

theorem checkNoteMatch_self (a : String) : checkNoteMatch a a = true := by
  simp [checkNoteMatch]

theorem WU.rollback_eval (s : WU.State)
    (h1 : s.pb.isPlaying = true) (h2 : s.polling = true)
    (h4 : s.pb.expectedNoteIndex < (s.pb.melody.length : Int))
    (h5 : s.pb.currentNoteIndex = s.pb.expectedNoteIndex)
    (h6 : s.tracker.isNotePressed (noteAt s.pb.melody s.pb.expectedNoteIndex).note = false) :
    WU.pollTick s =
      { s with pb := { s.pb with currentNoteIndex := s.pb.expectedNoteIndex - 1 }
               sounding := none
               durTimeoutId := none
               timers := match s.durTimeoutId with
                 | some tid => s.timers.filter (fun t => t.id != tid)
                 | none => s.timers
               audio := s.audio ++ (match s.sounding with
                 | some n => [AudioCall.stopped n]
                 | none => []) } := by
  unfold WU.pollTick
  rw [if_pos h2]
  unfold WU.checkUserInput
  dsimp only
  rw [if_neg (by simp [h1]), if_neg (by omega), if_pos h5, if_pos h6]
  simp [WU.clearDurTimeout_eq, WU.silence_eq]

theorem WU.pressArm_eval (r : WU.State) (t2 : ℚ) (name : String)
    (hname : name = (noteAt r.pb.melody r.pb.expectedNoteIndex).note)
    (hr1 : r.pb.isPlaying = true) (hr2 : r.polling = true)
    (hr4 : r.pb.expectedNoteIndex < (r.pb.melody.length : Int))
    (hr5 : r.pb.currentNoteIndex ≠ r.pb.expectedNoteIndex)
    (hr6 : r.tracker.isNotePressed (noteAt r.pb.melody r.pb.expectedNoteIndex).note = false)
    (hr7 : r.lastCheckedEventCount = r.tracker.getTotalEventCount)
    (hr8 : ∀ ev ∈ r.tracker.events, 0 ≤ ev.pressTime ∧ ev.pressTime ≤ r.now)
    (hr9 : 0 ≤ r.now) (hr10 : r.now ≤ t2)
    (hdur : 0 < getNoteDurationMs (noteAt r.pb.melody r.pb.expectedNoteIndex).duration r.tempo) :
    WU.pollTick (WU.userPress (WU.advanceTime r t2) name) =
      { r with
        pb := { r.pb with currentNoteIndex := r.pb.expectedNoteIndex }
        tracker := r.tracker.pressedAppend name t2
        now := t2
        lastCheckedEventCount := r.tracker.events.length + 1
        durTimeoutId := some r.nextId
        timers := r.timers ++ [WU.armedTimer r t2]
        nextId := r.nextId + 1
        audio := r.audio ++ [AudioCall.played name]
        sounding := some name } := by
  subst hname
  have hmax : max r.now t2 = t2 := max_eq_right hr10
  have hr6a : (r.tracker.activePresses.find?
      (fun p => p.1 == (noteAt r.pb.melody r.pb.expectedNoteIndex).note)).isSome = false := hr6
  have hstate : WU.userPress (WU.advanceTime r t2)
      (noteAt r.pb.melody r.pb.expectedNoteIndex).note =
      { r with now := t2
               tracker := r.tracker.pressedAppend
                 (noteAt r.pb.melody r.pb.expectedNoteIndex).note t2 } := by
    unfold WU.userPress WU.advanceTime Tracker.recordPress Tracker.pressedAppend
    dsimp only
    rw [hmax, if_neg (by simp [hr6a])]
  rw [hstate]
  have hcount : ¬ ((r.tracker.pressedAppend
      (noteAt r.pb.melody r.pb.expectedNoteIndex).note t2).getTotalEventCount ≤
      r.lastCheckedEventCount) := by
    rw [hr7]
    simp [Tracker.getTotalEventCount, Tracker.pressedAppend]
  have hfilter : (r.tracker.pressedAppend
      (noteAt r.pb.melody r.pb.expectedNoteIndex).note t2).getEventsInWindow 0 t2 =
      (r.tracker.pressedAppend (noteAt r.pb.melody r.pb.expectedNoteIndex).note t2).events := by
    unfold Tracker.getEventsInWindow
    rw [List.filter_eq_self]
    intro ev hev
    unfold Tracker.pressedAppend at hev
    dsimp only at hev
    rcases List.mem_append.1 hev with hold | hnew
    · have hb := hr8 ev hold
      simp only [Bool.and_eq_true, decide_eq_true_eq]
      exact ⟨hb.1, le_trans hb.2 hr10⟩
    · simp only [List.mem_singleton] at hnew
      subst hnew
      simp only [Bool.and_eq_true, decide_eq_true_eq]
      exact ⟨le_trans hr9 hr10, le_refl t2⟩
  unfold WU.pollTick
  rw [if_pos hr2]
  unfold WU.checkUserInput
  dsimp only
  rw [if_neg (by simp [hr1]), if_neg (by omega), if_neg (by simpa using hr5), if_neg hcount,
    hfilter, hr7]
  show WU.processNewEvents _ _ _
    ((r.tracker.pressedAppend (noteAt r.pb.melody r.pb.expectedNoteIndex).note
      t2).events.drop r.tracker.events.length) = _
  unfold Tracker.pressedAppend
  dsimp only
  rw [List.drop_left]
  unfold WU.processNewEvents
  rw [if_pos (checkNoteMatch_self _)]
  dsimp only
  rw [if_pos (by simpa using hdur)]
  simp [WU.setTimeout, Tracker.pressedAppend, WU.armedTimer, Tracker.getTotalEventCount]

theorem WU.logStopNote_eq (s : WU.State) : WU.logStopNote s =
    { s with audio := s.audio ++ (match s.sounding with
        | some n => [AudioCall.stopped n]
        | none => []) } := by
  cases hs : s.sounding with
  | none =>
    simp only [WU.logStopNote, hs, List.append_nil]
    rw [← hs]
  | some n => simp [WU.logStopNote, hs]

theorem WU.advanceToNextNote_proj (s : WU.State) :
    (WU.advanceToNextNote s).pb.currentNoteIndex = s.pb.expectedNoteIndex ∧
    (WU.advanceToNextNote s).pb.lastCompletedNoteIndex = s.pb.expectedNoteIndex ∧
    (WU.advanceToNextNote s).pb.expectedNoteIndex = s.pb.expectedNoteIndex + 1 ∧
    (WU.advanceToNextNote s).pb.isPlaying = s.pb.isPlaying ∧
    (WU.advanceToNextNote s).pb.melody = s.pb.melody ∧
    (WU.advanceToNextNote s).polling = s.polling ∧
    (WU.advanceToNextNote s).tracker = s.tracker ∧
    (WU.advanceToNextNote s).lastCheckedEventCount = s.lastCheckedEventCount ∧
    (WU.advanceToNextNote s).sounding = none := by
  unfold WU.advanceToNextNote
  dsimp only
  split <;> simp [WU.setTimeout, WU.silence_eq, WU.logStopNote_eq]

theorem WU.holdAdvance_eval (q : WU.State) (t3 tp : ℚ) (evs0 : List UserInputEvent)
    (hq1 : q.pb.isPlaying = true) (hq2 : q.polling = true)
    (hq4 : q.pb.expectedNoteIndex < (q.pb.melody.length : Int))
    (hq5 : q.pb.currentNoteIndex = q.pb.expectedNoteIndex)
    (hq6 : q.tracker.isNotePressed (noteAt q.pb.melody q.pb.expectedNoteIndex).note = true)
    (hq7 : q.tracker.events = evs0 ++
      [{ note := (noteAt q.pb.melody q.pb.expectedNoteIndex).note, pressTime := tp,
         releaseTime := none }])
    (hq8 : tp + getNoteDurationMs (noteAt q.pb.melody q.pb.expectedNoteIndex).duration
      q.tempo ≤ t3)
    (hq9 : q.now ≤ t3) :
    WU.pollTick (WU.advanceTime q t3) =
      WU.advanceToNextNote (WU.clearDurTimeout (WU.advanceTime q t3)) := by
  have hmax : max q.now t3 = t3 := max_eq_right hq9
  have hlatest : q.tracker.getLatestEventForNote
      (noteAt q.pb.melody q.pb.expectedNoteIndex).note =
      some { note := (noteAt q.pb.melody q.pb.expectedNoteIndex).note, pressTime := tp,
             releaseTime := none } := by
    unfold Tracker.getLatestEventForNote
    rw [hq7]
    rw [List.reverse_append]
    simp
  unfold WU.pollTick
  rw [if_pos (show (WU.advanceTime q t3).polling = true from hq2)]
  unfold WU.checkUserInput WU.advanceTime
  dsimp only
  rw [hmax]
  rw [if_neg (by simp [hq1]), if_neg (by omega), if_pos hq5, if_neg (by simp [hq6]), hlatest]
  dsimp only
  rw [if_pos (by linarith)]

theorem Tracker.isNotePressed_pressedAppend (t : Tracker) (note : String) (ts : ℚ) :
    (t.pressedAppend note ts).isNotePressed note = true := by
  unfold Tracker.isNotePressed Tracker.pressedAppend
  dsimp only
  rw [List.find?_append]
  cases hfind : t.activePresses.find? (fun p => p.1 == note) <;> simp [hfind]

theorem WU.idlePoll_eval (z : WU.State)
    (hz1 : z.pb.isPlaying = true)
    (hz4 : z.pb.expectedNoteIndex < (z.pb.melody.length : Int))
    (hz5 : z.pb.currentNoteIndex ≠ z.pb.expectedNoteIndex)
    (hzc : z.tracker.getTotalEventCount ≤ z.lastCheckedEventCount) :
    WU.pollTick z = z := by
  unfold WU.pollTick
  split
  · unfold WU.checkUserInput
    dsimp only
    rw [if_neg (by simp [hz1]), if_neg (by omega), if_neg hz5, if_pos hzc]
  · rfl

/-- C8: in the Wait-For-User engine, from any HoldingForDuration state for
expected note e (currentNoteIndex = e = expectedNoteIndex, engine playing and
polling, watermark caught up, all recorded presses in the past) where the key
has been released, the next poll does not advance: expectedNoteIndex stays e,
currentNoteIndex rolls back to e - 1, the sounding note is silenced and the
backup timer is cleared; then pressing the expected note again at time t2 and
polling makes currentNoteIndex e again, and a poll at any time t3 at least the
nominal duration after t2 (key still held) advances exactly once —
lastCompletedNoteIndex becomes e and expectedNoteIndex becomes e + 1 — and
when e + 1 is still within the melody a further poll with no new input changes
nothing. -/
theorem C8_theorem (s : WU.State) (t2 t3 : ℚ)
    (h1 : s.pb.isPlaying = true) (h2 : s.polling = true)
    (h3 : 0 ≤ s.pb.expectedNoteIndex)
    (h4 : s.pb.expectedNoteIndex < (s.pb.melody.length : Int))
    (h5 : s.pb.currentNoteIndex = s.pb.expectedNoteIndex)
    (h6 : s.tracker.isNotePressed (noteAt s.pb.melody s.pb.expectedNoteIndex).note = false)
    (h7 : s.lastCheckedEventCount = s.tracker.getTotalEventCount)
    (h8 : ∀ ev ∈ s.tracker.events, 0 ≤ ev.pressTime ∧ ev.pressTime ≤ s.now)
    (h9 : 0 ≤ s.now) (h10 : s.now ≤ t2)
    (h11 : 0 < getNoteDurationMs (noteAt s.pb.melody s.pb.expectedNoteIndex).duration s.tempo)
    (h12 : t2 + getNoteDurationMs (noteAt s.pb.melody s.pb.expectedNoteIndex).duration
      s.tempo ≤ t3) :
    (WU.pollTick s).pb.expectedNoteIndex = s.pb.expectedNoteIndex ∧
    (WU.pollTick s).pb.currentNoteIndex = s.pb.expectedNoteIndex - 1 ∧
    (WU.pollTick s).sounding = none ∧
    (WU.pollTick s).pb.lastCompletedNoteIndex = s.pb.lastCompletedNoteIndex ∧
    (WU.pollTick (WU.userPress (WU.advanceTime (WU.pollTick s) t2)
      (noteAt s.pb.melody s.pb.expectedNoteIndex).note)).pb.currentNoteIndex =
      s.pb.expectedNoteIndex ∧
    (WU.pollTick (WU.advanceTime (WU.pollTick (WU.userPress
        (WU.advanceTime (WU.pollTick s) t2)
        (noteAt s.pb.melody s.pb.expectedNoteIndex).note)) t3)).pb.lastCompletedNoteIndex =
      s.pb.expectedNoteIndex ∧
    (WU.pollTick (WU.advanceTime (WU.pollTick (WU.userPress
        (WU.advanceTime (WU.pollTick s) t2)
        (noteAt s.pb.melody s.pb.expectedNoteIndex).note)) t3)).pb.expectedNoteIndex =
      s.pb.expectedNoteIndex + 1 ∧
    (s.pb.expectedNoteIndex + 1 < (s.pb.melody.length : Int) →
      WU.pollTick (WU.pollTick (WU.advanceTime (WU.pollTick (WU.userPress
        (WU.advanceTime (WU.pollTick s) t2)
        (noteAt s.pb.melody s.pb.expectedNoteIndex).note)) t3)) =
      WU.pollTick (WU.advanceTime (WU.pollTick (WU.userPress
        (WU.advanceTime (WU.pollTick s) t2)
        (noteAt s.pb.melody s.pb.expectedNoteIndex).note)) t3)) := by
  have hs1 := WU.rollback_eval s h1 h2 h4 h5 h6
  rw [hs1]
  set R : WU.State :=
    { s with pb := { s.pb with currentNoteIndex := s.pb.expectedNoteIndex - 1 }
             sounding := none
             durTimeoutId := none
             timers := match s.durTimeoutId with
               | some tid => s.timers.filter (fun t => t.id != tid)
               | none => s.timers
             audio := s.audio ++ (match s.sounding with
               | some n => [AudioCall.stopped n]
               | none => []) } with hR
  have hpress := WU.pressArm_eval R t2 (noteAt s.pb.melody s.pb.expectedNoteIndex).note
    rfl h1 h2 h4 (by show s.pb.expectedNoteIndex - 1 ≠ s.pb.expectedNoteIndex; omega)
    h6 h7 h8 h9 h10 h11
  rw [hpress]
  set Q : WU.State :=
    { R with
      pb := { R.pb with currentNoteIndex := R.pb.expectedNoteIndex }
      tracker := R.tracker.pressedAppend (noteAt s.pb.melody s.pb.expectedNoteIndex).note t2
      now := t2
      lastCheckedEventCount := R.tracker.events.length + 1
      durTimeoutId := some R.nextId
      timers := R.timers ++ [WU.armedTimer R t2]
      nextId := R.nextId + 1
      audio := R.audio ++
        [AudioCall.played (noteAt s.pb.melody s.pb.expectedNoteIndex).note]
      sounding := some (noteAt s.pb.melody s.pb.expectedNoteIndex).note } with hQ
  have hq6 : Q.tracker.isNotePressed (noteAt Q.pb.melody Q.pb.expectedNoteIndex).note =
      true :=
    Tracker.isNotePressed_pressedAppend s.tracker
      (noteAt s.pb.melody s.pb.expectedNoteIndex).note t2
  have hhold := WU.holdAdvance_eval Q t3 t2 s.tracker.events h1 h2 h4 rfl hq6 rfl h12
    (by show t2 ≤ t3; linarith)
  rw [hhold]
  have hproj := WU.advanceToNextNote_proj (WU.clearDurTimeout (WU.advanceTime Q t3))
  refine ⟨rfl, rfl, rfl, rfl, rfl, ?_, ?_, ?_⟩
  · exact hproj.2.1
  · exact hproj.2.2.1
  · intro hlt
    apply WU.idlePoll_eval
    · exact hproj.2.2.2.1.trans h1
    · rw [hproj.2.2.1, hproj.2.2.2.2.1]
      exact hlt
    · rw [hproj.1, hproj.2.2.1]
      omega
    · rw [hproj.2.2.2.2.2.2.1, hproj.2.2.2.2.2.2.2.1]
      show (s.tracker.pressedAppend _ t2).getTotalEventCount ≤ s.tracker.events.length + 1
      simp [Tracker.pressedAppend, Tracker.getTotalEventCount]

theorem C8_witness :
    (sC8.pb.isPlaying = true ∧ sC8.polling = true ∧
      sC8.pb.currentNoteIndex = sC8.pb.expectedNoteIndex ∧
      sC8.tracker.isNotePressed (noteAt sC8.pb.melody sC8.pb.expectedNoteIndex).note =
        false) ∧
    (WU.pollTick sC8).pb.currentNoteIndex = -1 ∧
    (WU.pollTick sC8).pb.expectedNoteIndex = 0 ∧
    (WU.pollTick (WU.advanceTime (WU.pollTick (WU.userPress
      (WU.advanceTime (WU.pollTick sC8) 400)
      (noteAt sC8.pb.melody sC8.pb.expectedNoteIndex).note))
      1400)).pb.lastCompletedNoteIndex = 0 ∧
    (WU.pollTick (WU.advanceTime (WU.pollTick (WU.userPress
      (WU.advanceTime (WU.pollTick sC8) 400)
      (noteAt sC8.pb.melody sC8.pb.expectedNoteIndex).note))
      1400)).pb.expectedNoteIndex = 1 := by
  have h1 : sC8.pb.isPlaying = true := rfl
  have h2 : sC8.polling = true := rfl
  have h3 : (0 : Int) ≤ sC8.pb.expectedNoteIndex := by norm_num [sC8, initPB]
  have h4 : sC8.pb.expectedNoteIndex < (sC8.pb.melody.length : Int) := by
    norm_num [sC8, initPB, melCD]
  have h5 : sC8.pb.currentNoteIndex = sC8.pb.expectedNoteIndex := rfl
  have h6 : sC8.tracker.isNotePressed
      (noteAt sC8.pb.melody sC8.pb.expectedNoteIndex).note = false := rfl
  have h7 : sC8.lastCheckedEventCount = sC8.tracker.getTotalEventCount := rfl
  have h8 : ∀ ev ∈ sC8.tracker.events, 0 ≤ ev.pressTime ∧ ev.pressTime ≤ sC8.now := by
    intro ev hev
    simp only [sC8, List.mem_singleton] at hev
    subst hev
    norm_num [sC8]
  have h9 : (0 : ℚ) ≤ sC8.now := by norm_num [sC8]
  have h10 : sC8.now ≤ (400 : ℚ) := by norm_num [sC8]
  have h11 : 0 < getNoteDurationMs
      (noteAt sC8.pb.melody sC8.pb.expectedNoteIndex).duration sC8.tempo := by
    norm_num [sC8, initPB, melCD, getNoteDurationMs, noteAt]
  have h12 : (400 : ℚ) + getNoteDurationMs
      (noteAt sC8.pb.melody sC8.pb.expectedNoteIndex).duration sC8.tempo ≤ 1400 := by
    norm_num [sC8, initPB, melCD, getNoteDurationMs, noteAt]
  have hm := C8_theorem sC8 400 1400 h1 h2 h3 h4 h5 h6 h7 h8 h9 h10 h11 h12
  refine ⟨⟨h1, h2, h5, h6⟩, ?_, ?_, ?_, ?_⟩
  · rw [hm.2.1]
    norm_num [sC8, initPB]
  · rw [hm.1]
    norm_num [sC8, initPB]
  · rw [hm.2.2.2.2.2.1]
    norm_num [sC8, initPB]
  · rw [hm.2.2.2.2.2.2.1]
    norm_num [sC8, initPB]


theorem closeFirstOpen_filter_length (evs : List UserInputEvent) (note : String) (ts : ℚ) :
    ((closeFirstOpen evs note ts).filter
      (fun e => e.note == note && e.releaseTime.isNone)).length =
    (evs.filter (fun e => e.note == note && e.releaseTime.isNone)).length - 1 := by
  induction evs with
  | nil => simp [closeFirstOpen]
  | cons e rest ih =>
    simp only [closeFirstOpen]
    by_cases he : (e.note == note && e.releaseTime.isNone) = true
    · rw [if_pos he]
      rw [List.filter_cons, List.filter_cons, he]
      have hclosed : (({ e with releaseTime := some ts } : UserInputEvent).note == note &&
          ({ e with releaseTime := some ts } : UserInputEvent).releaseTime.isNone) = false := by
        simp
      rw [hclosed]
      simp
    · rw [if_neg he]
      have he' : (e.note == note && e.releaseTime.isNone) = false :=
        Bool.eq_false_iff.2 he
      rw [List.filter_cons, List.filter_cons, he']
      simpa using ih

theorem closeFirstOpen_filter_ne (evs : List UserInputEvent) (note m : String) (ts : ℚ)
    (hne : m ≠ note) :
    (closeFirstOpen evs note ts).filter (fun e => e.note == m && e.releaseTime.isNone) =
    evs.filter (fun e => e.note == m && e.releaseTime.isNone) := by
  induction evs with
  | nil => simp [closeFirstOpen]
  | cons e rest ih =>
    simp only [closeFirstOpen]
    by_cases he : (e.note == note && e.releaseTime.isNone) = true
    · rw [if_pos he]
      have hnote : e.note = note := by
        have h := he
        simp only [Bool.and_eq_true, beq_iff_eq] at h
        exact h.1
      rw [List.filter_cons, List.filter_cons]
      have hm1 : (({ e with releaseTime := some ts } : UserInputEvent).note == m &&
          ({ e with releaseTime := some ts } : UserInputEvent).releaseTime.isNone) = false := by
        simp
      have hbeq : (e.note == m) = false := beq_eq_false_iff_ne.2 (by
        rw [hnote]
        exact Ne.symm hne)
      have hm2 : (e.note == m && e.releaseTime.isNone) = false := by
        rw [hbeq, Bool.false_and]
      rw [hm1, hm2]
      rfl
    · rw [if_neg he]
      rw [List.filter_cons, List.filter_cons, ih]

theorem closeMostRecentOpen_filter_length (evs : List UserInputEvent) (note : String)
    (ts : ℚ) :
    ((closeMostRecentOpen evs note ts).filter
      (fun e => e.note == note && e.releaseTime.isNone)).length =
    (evs.filter (fun e => e.note == note && e.releaseTime.isNone)).length - 1 := by
  unfold closeMostRecentOpen
  rw [List.filter_reverse, List.length_reverse, closeFirstOpen_filter_length,
    List.filter_reverse, List.length_reverse]

theorem closeMostRecentOpen_filter_ne (evs : List UserInputEvent) (note m : String)
    (ts : ℚ) (hne : m ≠ note) :
    (closeMostRecentOpen evs note ts).filter (fun e => e.note == m && e.releaseTime.isNone) =
    evs.filter (fun e => e.note == m && e.releaseTime.isNone) := by
  unfold closeMostRecentOpen
  rw [List.filter_reverse, closeFirstOpen_filter_ne _ _ _ _ hne, ← List.filter_reverse,
    List.reverse_reverse]

theorem isNotePressed_iff (t : Tracker) (n : String) :
    t.isNotePressed n = true ↔ ∃ x ∈ t.activePresses, x.1 = n := by
  unfold Tracker.isNotePressed
  rw [List.find?_isSome]
  simp

theorem OpenInv.empty : OpenInv Tracker.empty := by
  intro n
  simp [openEventsFor, Tracker.empty, Tracker.isNotePressed]

theorem OpenInv.press (t : Tracker) (h : OpenInv t) (note : String) (ts : ℚ) :
    OpenInv (t.recordPress note ts) := by
  intro n
  unfold Tracker.recordPress
  by_cases hact : (t.activePresses.find? (fun p => p.1 == note)).isSome = true
  · rw [if_pos hact]
    exact h n
  · rw [if_neg hact]
    have hnotpressed : t.isNotePressed note = false := Bool.eq_false_iff.2 hact
    by_cases hn : n = note
    · subst hn
      have hzero := h n
      rw [hnotpressed, if_neg (by simp)] at hzero
      have hpressed : (⟨t.events ++ [⟨n, ts, none⟩],
          t.activePresses ++ [(n, ts)]⟩ : Tracker).isNotePressed n = true :=
        (isNotePressed_iff _ _).2 ⟨(n, ts), List.mem_append_right _ (List.mem_singleton_self _),
          rfl⟩
      rw [hpressed, if_pos rfl]
      unfold openEventsFor at hzero ⊢
      rw [List.filter_append, List.length_append, hzero]
      simp
    · have hsame : (⟨t.events ++ [⟨note, ts, none⟩],
          t.activePresses ++ [(note, ts)]⟩ : Tracker).isNotePressed n = t.isNotePressed n := by
        by_cases hold : t.isNotePressed n = true
        · rw [hold]
          refine (isNotePressed_iff _ _).2 ?_
          obtain ⟨x, hx, hx1⟩ := (isNotePressed_iff _ _).1 hold
          exact ⟨x, List.mem_append_left _ hx, hx1⟩
        · rw [Bool.eq_false_iff.2 hold]
          refine Bool.eq_false_iff.2 fun hnew => hold ?_
          obtain ⟨x, hx, hx1⟩ := (isNotePressed_iff _ _).1 hnew
          rcases List.mem_append.1 hx with hl | hr
          · exact (isNotePressed_iff _ _).2 ⟨x, hl, hx1⟩
          · simp only [List.mem_singleton] at hr
            subst hr
            exact absurd hx1 (Ne.symm hn)
      rw [hsame]
      unfold openEventsFor
      rw [List.filter_append]
      have hone : List.filter (fun e => e.note == n && e.releaseTime.isNone)
          [(⟨note, ts, none⟩ : UserInputEvent)] = [] := by
        simp [beq_eq_false_iff_ne, Ne.symm hn]
      rw [hone, List.append_nil]
      exact h n

theorem OpenInv.release (t : Tracker) (h : OpenInv t) (note : String) (ts : ℚ) :
    OpenInv (t.recordRelease note ts) := by
  intro n
  unfold Tracker.recordRelease
  cases hfind : t.activePresses.find? (fun p => p.1 == note) with
  | none => exact h n
  | some p =>
    dsimp only
    by_cases hp0 : (p.2 == 0) = true
    · rw [if_pos hp0]
      exact h n
    · rw [if_neg hp0]
      have hpressed : t.isNotePressed note = true := by
        unfold Tracker.isNotePressed
        rw [hfind]
        rfl
      by_cases hn : n = note
      · subst hn
        have hnot : (⟨closeMostRecentOpen t.events n ts,
            t.activePresses.filter (fun q => q.1 != n)⟩ : Tracker).isNotePressed n = false := by
          refine Bool.eq_false_iff.2 fun hnew => ?_
          obtain ⟨x, hx, hx1⟩ := (isNotePressed_iff _ _).1 hnew
          have hne := (List.mem_filter.1 hx).2
          rw [hx1] at hne
          exact absurd rfl (bne_iff_ne.1 hne)
        rw [hnot, if_neg (by simp)]
        unfold openEventsFor
        dsimp only
        rw [closeMostRecentOpen_filter_length]
        have hone := h n
        rw [hpressed, if_pos rfl] at hone
        unfold openEventsFor at hone
        rw [hone]
      · have hsame : (⟨closeMostRecentOpen t.events note ts,
            t.activePresses.filter (fun q => q.1 != note)⟩ : Tracker).isNotePressed n =
            t.isNotePressed n := by
          by_cases hold : t.isNotePressed n = true
          · rw [hold]
            refine (isNotePressed_iff _ _).2 ?_
            obtain ⟨x, hx, hx1⟩ := (isNotePressed_iff _ _).1 hold
            refine ⟨x, List.mem_filter.2 ⟨hx, ?_⟩, hx1⟩
            rw [hx1]
            exact bne_iff_ne.2 hn
          · rw [Bool.eq_false_iff.2 hold]
            refine Bool.eq_false_iff.2 fun hnew => hold ?_
            obtain ⟨x, hx, hx1⟩ := (isNotePressed_iff _ _).1 hnew
            exact (isNotePressed_iff _ _).2 ⟨x, (List.mem_filter.1 hx).1, hx1⟩
        rw [hsame]
        unfold openEventsFor
        dsimp only
        rw [closeMostRecentOpen_filter_ne _ _ _ _ hn]
        exact h n

theorem OpenInv.applyOp (t : Tracker) (h : OpenInv t) (op : TrackerOp) :
    OpenInv (applyOp t op) := by
  cases op with
  | press note ts => exact OpenInv.press t h note ts
  | release note ts => exact OpenInv.release t h note ts
  | wipe => exact OpenInv.empty

theorem openInv_runOps (ops : List TrackerOp) : OpenInv (runOps ops) := by
  unfold runOps
  have hstep : ∀ t, OpenInv t → OpenInv (ops.foldl applyOp t) := by
    induction ops with
    | nil => exact fun t h => h
    | cons op rest ih => exact fun t h => ih _ (OpenInv.applyOp t h op)
  exact hstep _ OpenInv.empty

theorem OpenInv.pressed_iff (t : Tracker) (h : OpenInv t) (n : String) :
    t.isNotePressed n = true ↔ ∃ e ∈ t.events, e.note = n ∧ e.releaseTime = none := by
  constructor
  · intro hp
    have hc := h n
    rw [hp, if_pos rfl] at hc
    have hpos : 0 < (openEventsFor t n).length := by omega
    obtain ⟨e, he⟩ := List.exists_mem_of_length_pos hpos
    have := List.mem_filter.1 he
    refine ⟨e, this.1, ?_⟩
    have hb := this.2
    simp only [Bool.and_eq_true, beq_iff_eq, Option.isNone_iff_eq_none] at hb
    exact hb
  · rintro ⟨e, he, h1, h2⟩
    by_contra hnp
    have hfalse : t.isNotePressed n = false := Bool.eq_false_iff.2 hnp
    have hc := h n
    rw [hfalse, if_neg (by simp)] at hc
    have : e ∈ openEventsFor t n := by
      refine List.mem_filter.2 ⟨he, ?_⟩
      simp [h1, h2]
    rw [List.length_eq_zero.1 hc] at this
    exact absurd this (List.not_mem_nil e)

theorem mem_getActiveNotes_iff (t : Tracker) (n : String) :
    n ∈ t.getActiveNotes ↔ t.isNotePressed n = true := by
  unfold Tracker.getActiveNotes
  rw [isNotePressed_iff, List.mem_map]

/-- C10: after any history of recordPress, recordRelease and clear operations
on the User Input Tracker, every exact note name has at most one open event
(releaseTime still null) in the log; isNotePressed returns true exactly when
such an open event exists, and getActiveNotes contains exactly the note names
that have an open event. -/
theorem C10_theorem (ops : List TrackerOp) (note : String) :
    (openEventsFor (runOps ops) note).length ≤ 1 ∧
    ((runOps ops).isNotePressed note = true ↔
      ∃ e ∈ (runOps ops).events, e.note = note ∧ e.releaseTime = none) ∧
    (note ∈ (runOps ops).getActiveNotes ↔
      ∃ e ∈ (runOps ops).events, e.note = note ∧ e.releaseTime = none) := by
  have hinv := openInv_runOps ops
  refine ⟨?_, OpenInv.pressed_iff _ hinv note, ?_⟩
  · have hc := hinv note
    rw [hc]
    split <;> omega
  · rw [mem_getActiveNotes_iff]
    exact OpenInv.pressed_iff _ hinv note
